import Mathlib

/-!
Verification development for a three-phase analyzer of a small teaching
language (lexical analysis, recursive-descent parsing, semantic checks),
shallowly embedded from `src/main.py`.

Conventions of the embedding:
* Python token values (int / float / str) become the inductive `TokVal`;
  a float value keeps the matched literal text (only its classification as
  a float is ever observed by the program).
* Python regular-expression scanning (`re.finditer` over the alternation of
  the token specification) is embedded by one matcher per specification row,
  reproducing the first-alternative / leftmost semantics of the Python `re`
  module on these particular patterns, plus a scanner that advances by one
  character when no rule matches.
* The parser's mutable cursor / symbol table become the explicit state
  `PState`; a raised `SyntaxError` becomes `POut.synErr`; any other Python
  exception (in this program: `IndexError` from an unguarded list access)
  becomes `POut.crash`; `while` loops and recursion are driven by explicit
  fuel, `POut.timeout` marking fuel exhaustion (so `∀ fuel, … = timeout`
  expresses true divergence).
* Python `dict` (insertion ordered) becomes an association list with
  update-in-place (`stSet`, `stUpdateValue`); Python `set` becomes a list
  with membership-checked insertion (`setInsert`) — only membership and
  cardinality of these sets are observed by the claims.
-/

namespace Recognizer

/-- Python token value: `int`, `float` (kept as the matched literal text) or `str`. -/
inductive TokVal where
  | vInt : Nat → TokVal
  | vFloat : String → TokVal
  | vStr : String → TokVal
deriving DecidableEq

/-- A token as produced by `LexicalAnalyzer.tokenize`: `(kind, value)`. -/
abbrev Token := String × TokVal

/-- Characters matched by the character class `[0-9A-Fa-f]` of the HEX rule. -/
def isHexC (c : Char) : Bool :=
  c.isDigit || ('A' ≤ c && c ≤ 'F') || ('a' ≤ c && c ≤ 'f')

/-- Word characters as in the regex class `[A-Za-z_0-9]` (and `\b` boundaries). -/
def isWordC (c : Char) : Bool := c.isAlphanum || c = '_'

/-- Characters matched by Python `\s` on a str pattern: CPython's
`Py_UNICODE_ISSPACE` set — the ASCII whitespace characters 09–0D and 20,
the separators 1C–1F, and the Unicode whitespace code points 85, A0,
1680, 2000–200A, 2028, 2029, 202F, 205F and 3000. -/
def isPySpace (c : Char) : Bool :=
  ('\x09' ≤ c && c ≤ '\x0d') || c = ' ' ||
  ('\x1c' ≤ c && c ≤ '\x1f') || c = '\x85' || c = '\xa0' ||
  c = '\u1680' || ('\u2000' ≤ c && c ≤ '\u200a') ||
  c = '\u2028' || c = '\u2029' || c = '\u202f' || c = '\u205f' || c = '\u3000'

/-- Length of the longest prefix whose characters satisfy `p` (a greedy `+` run). -/
def countLeading (p : Char → Bool) : List Char → Nat
  | [] => 0
  | c :: rest => if p c then countLeading p rest + 1 else 0

/-- Distance to the first occurrence of the closing `*/` of a comment,
scanning lazily and refusing newlines (the `.` of `/\*.*?\*/` does not match
a newline). Returns the number of content characters before `*/`. -/
def commentClose : List Char → Option Nat
  | '*' :: '/' :: _ => some 0
  | c :: rest => if c = '\n' then none else (commentClose rest).map (fun j => j + 1)
  | [] => none

/-- Matcher for the COMMENT rule regex, returning the matched length. -/
def matchComment (s : List Char) : Option Nat :=
  match s with
  | c1 :: c2 :: rest =>
      if c1 = '/' && c2 = '*' then (commentClose rest).map (fun j => j + 4) else none
  | _ => none

/-- Matcher for the NUMBER rule regex (digits, optional fraction, optional
exponent, each part greedy; a lone dot or a dangling exponent marker is left
unconsumed exactly as Python backtracking leaves it). -/
def matchNumber (s : List Char) : Option Nat :=
  let d := countLeading Char.isDigit s
  if d = 0 then none else
    let s1 := s.drop d
    let frac :=
      match s1 with
      | '.' :: r =>
          let f := countLeading Char.isDigit r
          if f = 0 then 0 else f + 1
      | _ => 0
    let s2 := s1.drop frac
    let ex :=
      match s2 with
      | c :: r =>
          if c = 'E' || c = 'e' then
            match r with
            | c2 :: r2 =>
                if c2 = '+' || c2 = '-' then
                  let e := countLeading Char.isDigit r2
                  if e = 0 then 0 else e + 2
                else
                  let e := countLeading Char.isDigit r
                  if e = 0 then 0 else e + 1
            | [] => 0
          else 0
      | [] => 0
    some (d + frac + ex)

/-- Matcher for the shape `CLASS+SUFFIX` (BIN / OCT / HEX rules): a greedy
run of class characters followed by one of the two suffix letters. Since the
suffix letters are not in the class, Python backtracking cannot shorten the
run, so the rule matches exactly when the maximal run is followed by the
suffix. -/
def matchRunSuffix (p : Char → Bool) (suf1 suf2 : Char) (s : List Char) : Option Nat :=
  let k := countLeading p s
  if k = 0 then none
  else
    match s.drop k with
    | c :: _ => if c = suf1 || c = suf2 then some (k + 1) else none
    | [] => none

/-- Matcher for the BIN_NUMBER rule `[01]+[Bb]`. -/
def matchBin (s : List Char) : Option Nat :=
  matchRunSuffix (fun c => c = '0' || c = '1') 'B' 'b' s

/-- Matcher for the OCT_NUMBER rule `[0-7]+[Oo]`. -/
def matchOct (s : List Char) : Option Nat :=
  matchRunSuffix (fun c => '0' ≤ c && c ≤ '7') 'O' 'o' s

/-- Matcher for the HEX_NUMBER rule `[0-9A-Fa-f]+[Hh]`. -/
def matchHex (s : List Char) : Option Nat :=
  matchRunSuffix isHexC 'H' 'h' s

/-- Matcher for the DEC_NUMBER rule `\d+[Dd]?`. -/
def matchDec (s : List Char) : Option Nat :=
  let k := countLeading Char.isDigit s
  if k = 0 then none
  else
    match s.drop k with
    | c :: _ => if c = 'D' || c = 'd' then some (k + 1) else some k
    | [] => some k

/-- The keyword alternatives, in the order they appear in the regex. -/
def keywordList : List String :=
  ["let", "if", "then", "else", "for", "do", "while", "loop", "input", "output"]

/-- One keyword alternative followed by the trailing `\b` check. -/
def keywordAt (w : List Char) (s : List Char) : Option Nat :=
  if s.take w.length = w then
    match s.drop w.length with
    | c :: _ => if isWordC c then none else some w.length
    | [] => some w.length
  else none

/-- First defined entry of a list of options (regex alternation order). -/
def firstSome {α : Type} : List (Option α) → Option α
  | [] => none
  | some a :: _ => some a
  | none :: rest => firstSome rest

/-- Matcher for the KEYWORD rule `\b(let|…|output)\b`; `prevWord` tells
whether the character before the current position is a word character (the
leading `\b` fails exactly when it is, because every keyword starts with a
word character). -/
def matchKeyword (prevWord : Bool) (s : List Char) : Option Nat :=
  if prevWord then none
  else firstSome (keywordList.map (fun w => keywordAt w.toList s))

/-- Matcher for the IDENTIFIER rule `[A-Za-z_][A-Za-z_0-9]*`. -/
def matchIdent (s : List Char) : Option Nat :=
  match s with
  | c :: rest => if c.isAlpha || c = '_' then some (countLeading isWordC rest + 1) else none
  | [] => none

/-- Matcher for the ASSIGN rule `=`. -/
def matchAssign (s : List Char) : Option Nat :=
  match s with
  | c :: _ => if c = '=' then some 1 else none
  | [] => none

/-- Matcher for the REL_OP rule `[<>]=?`. -/
def matchRelOp : List Char → Option Nat
  | c :: rest =>
      if c = '<' || c = '>' then
        match rest with
        | '=' :: _ => some 2
        | _ => some 1
      else none
  | [] => none

/-- Matcher for the ADD_OP rule `[+\-]|or`. -/
def matchAddOp (s : List Char) : Option Nat :=
  match s with
  | c :: rest =>
      if c = '+' || c = '-' then some 1
      else if c = 'o' then (match rest with | 'r' :: _ => some 2 | _ => none)
      else none
  | [] => none

/-- Matcher for the MUL_OP rule `[*/]|and`. -/
def matchMulOp (s : List Char) : Option Nat :=
  match s with
  | c :: rest =>
      if c = '*' || c = '/' then some 1
      else if c = 'a' then (match rest with | 'n' :: 'd' :: _ => some 3 | _ => none)
      else none
  | [] => none

/-- Matcher for the UNARY_OP rule `not`. -/
def matchUnary (s : List Char) : Option Nat :=
  match s with
  | c1 :: c2 :: c3 :: _ => if c1 = 'n' && c2 = 'o' && c3 = 't' then some 3 else none
  | _ => none

/-- Matcher for the DELIMITER rule, one of the six delimiter characters. -/
def matchDelim : List Char → Option Nat
  | c :: _ =>
      if c = '{' || c = '}' || c = '(' || c = ')' || c = ';' || c = ',' then some 1 else none
  | [] => none

/-- Matcher for the WHITESPACE rule `[ \t]+`. -/
def matchWs (s : List Char) : Option Nat :=
  let k := countLeading (fun c => c = ' ' || c = '\t') s
  if k = 0 then none else some k

/-- Matcher for the NEWLINE rule `\n`. -/
def matchNewline (s : List Char) : Option Nat :=
  match s with
  | c :: _ => if c = '\n' then some 1 else none
  | [] => none

/-- The token specification of `LexicalAnalyzer.__init__`, in source order.
Each row pairs the rule name with its matcher; only KEYWORD consults the
preceding-character flag (for its `\b`). -/
def tokenSpecification : List (String × (Bool → List Char → Option Nat)) :=
  [("COMMENT", fun _ => matchComment),
   ("NUMBER", fun _ => matchNumber),
   ("BIN_NUMBER", fun _ => matchBin),
   ("OCT_NUMBER", fun _ => matchOct),
   ("DEC_NUMBER", fun _ => matchDec),
   ("HEX_NUMBER", fun _ => matchHex),
   ("KEYWORD", matchKeyword),
   ("IDENTIFIER", fun _ => matchIdent),
   ("ASSIGN", fun _ => matchAssign),
   ("REL_OP", fun _ => matchRelOp),
   ("ADD_OP", fun _ => matchAddOp),
   ("MUL_OP", fun _ => matchMulOp),
   ("UNARY_OP", fun _ => matchUnary),
   ("DELIMITER", fun _ => matchDelim),
   ("WHITESPACE", fun _ => matchWs),
   ("NEWLINE", fun _ => matchNewline)]

/-- The alternation of all rules: the first rule (in specification order)
that matches at the current position wins, as in Python `re` alternation. -/
def unionMatch (prevWord : Bool) (s : List Char) : Option (String × Nat) :=
  firstSome (tokenSpecification.map (fun p => (p.2 prevWord s).map (fun n => (p.1, n))))

/-- Whether the last character of a matched text is a word character
(the `\b` context for the next scanning position). -/
def lastIsWord (l : List Char) : Bool :=
  match l.getLast? with
  | some c => isWordC c
  | none => false

/-- The scanning loop of `re.finditer` over the alternation: at each
position try the alternation; on a match of length `n` record
`(rule, text, position)` and continue after it, otherwise skip one
character. The first argument is structural-recursion fuel; every step
consumes at least one character, so starting it at the length of the
character list makes the fuel-exhaustion branch unreachable. -/
def scanAux : Nat → Bool → Nat → List Char → List (String × List Char × Nat)
  | 0, _, _, _ => []
  | _ + 1, _, _, [] => []
  | fc + 1, pw, pos, c :: rest =>
    match unionMatch pw (c :: rest) with
    | some (k, n) =>
        (k, (c :: rest).take n, pos) ::
          scanAux fc (lastIsWord ((c :: rest).take n)) (pos + n) (rest.drop (n - 1))
    | none => scanAux fc (isWordC c) (pos + 1) rest

/-- All primary-scan matches of the source, with their positions. -/
def rawScan (src : String) : List (String × List Char × Nat) :=
  scanAux src.length false 0 src.toList

/-- Conversion applied to the text of a NUMBER match:
`float(value) if '.' in value or 'E' in value or 'e' in value else int(value)`. -/
def numValue (text : String) : TokVal :=
  if text.toList.contains '.' || text.toList.contains 'E' || text.toList.contains 'e'
  then TokVal.vFloat text
  else TokVal.vInt ((text.toList.foldl (fun a c => a * 10 + (c.toNat - '0'.toNat)) 0))

/-- The token list produced by `LexicalAnalyzer.tokenize`: whitespace,
newline and comment matches are dropped, NUMBER texts are converted to a
numeric value, all other matches keep their text. -/
def tokenizeTokens (src : String) : List Token :=
  (rawScan src).filterMap (fun m =>
    let kind := m.1
    let text := String.mk m.2.1
    if kind = "WHITESPACE" || kind = "NEWLINE" || kind = "COMMENT" then none
    else if kind = "NUMBER" then some (kind, numValue text)
    else some (kind, TokVal.vStr text))

/-- Whether a single character, taken as a one-character string, is matched
at its start by some rule of the specification (`re.match(spec, char)`). -/
def singleCharSpecMatch (c : Char) : Bool :=
  tokenSpecification.any (fun p => (p.2 false [c]).isSome)

/-- The second pass of `tokenize`: every non-whitespace character of the
source (`re.finditer(r'[^\s]', program)`) that no rule matches as a
one-character string yields one error. -/
def tokenizeErrors (src : String) : List String :=
  (src.toList.filter (fun c => !(isPySpace c))).filterMap (fun c =>
    if singleCharSpecMatch c then none
    else some ("Неизвестный символ: " ++ c.toString))

/-- `LexicalAnalyzer.tokenize`: the token list and the lexical error list. -/
def tokenize (src : String) : List Token × List String :=
  (tokenizeTokens src, tokenizeErrors src)

/-! ## Parser -/

/-- The value returned by `parse_expression`: either a token value, or the
dict `\x7b"left": …, "operator": …, "right": …\x7d` built for a relational
comparison. -/
inductive ExprVal where
  | ofTok : TokVal → ExprVal
  | node : TokVal → TokVal → ExprVal → ExprVal
deriving DecidableEq

/-- A symbol-table entry `\x7b"type": …, "value": …, "declared": …\x7d`.
`value` is an `Option` because `check_types` reads it with `.get("value")`;
`declared = false` models the key being absent (nothing in the program ever
reads the key, only `parse_declaration` writes it). -/
structure Entry where
  ty : String
  value : Option ExprVal
  declared : Bool
deriving DecidableEq

/-- The symbol table: a Python dict, i.e. an insertion-ordered association
list keyed by the identifier token value. -/
abbrev SymTab := List (TokVal × Entry)

/-- Dict assignment `d[k] = e`: replace in place if the key exists, else
append. -/
def stSet (st : SymTab) (k : TokVal) (e : Entry) : SymTab :=
  match st with
  | [] => [(k, e)]
  | (k0, e0) :: rest => if k0 = k then (k0, e) :: rest else (k0, e0) :: stSet rest k e

/-- Dict lookup `k in d` / `d[k]`. -/
def stLookup (st : SymTab) (k : TokVal) : Option Entry :=
  match st with
  | [] => none
  | (k0, e0) :: rest => if k0 = k then some e0 else stLookup rest k

/-- `d[k]["value"] = v` for an existing key: update the value field in
place, keeping the rest of the entry. -/
def stUpdateValue (st : SymTab) (k : TokVal) (v : ExprVal) : SymTab :=
  match st with
  | [] => []
  | (k0, e0) :: rest =>
      if k0 = k then (k0, { e0 with value := some v }) :: rest
      else (k0, e0) :: stUpdateValue rest k v

/-- The parser's mutable state: the token list, the cursor, and the symbol
table. -/
structure PState where
  toks : List Token
  cur : Nat
  symtab : SymTab

/-- Outcome of a parsing step: normal return with a state, a raised
`SyntaxError`, a raised non-`SyntaxError` exception (`IndexError`), or fuel
exhaustion (divergence). -/
inductive POut (α : Type) where
  | ok : α → PState → POut α
  | synErr : String → POut α
  | crash : POut α
  | timeout : POut α

/-- Sequencing of parsing steps: exceptions and fuel exhaustion propagate. -/
def POut.bind {α β : Type} (x : POut α) (f : α → PState → POut β) : POut β :=
  match x with
  | .ok a s => f a s
  | .synErr m => .synErr m
  | .crash => .crash
  | .timeout => .timeout

/-- Python `str()` of a token value, as used by f-string interpolation. For
a float we keep the literal text (no claim observes Python float
formatting). -/
def pyFmt : TokVal → String
  | .vInt n => toString n
  | .vFloat s => s
  | .vStr s => s

/-- Python `repr()` of a token value (`repr` of a str adds quotes). -/
def pyReprVal : TokVal → String
  | .vInt n => toString n
  | .vFloat s => s
  | .vStr s => "\x27" ++ s ++ "\x27"

/-- Python `repr()` of a token tuple, as interpolated into error messages. -/
def tokenRepr (t : Token) : String :=
  "(\x27" ++ t.1 ++ "\x27, " ++ pyReprVal t.2 ++ ")"

/-- `SyntaxAnalyzer.match`: consume the cursor token when it has the
expected kind, otherwise raise a `SyntaxError` naming the expected kind and
the found token (or the end-of-input marker). -/
def pmatch (expected : String) (s : PState) : POut Token :=
  match s.toks.get? s.cur with
  | some t =>
      if t.1 = expected then POut.ok t { s with cur := s.cur + 1 }
      else POut.synErr ("Ожидался " ++ expected ++ ", найдено " ++ tokenRepr t)
  | none => POut.synErr ("Ожидался " ++ expected ++ ", найдено конец файла")

mutual

/-- `SyntaxAnalyzer.parse_statement`. The unguarded Python lookahead
`self.tokens[self.current_token + 1]` crashes (IndexError) when the cursor
token is the last one and is an IDENTIFIER. When the cursor token is an
IDENTIFIER not followed by ASSIGN, the Python if/elif chain falls through
to the final `else` and raises; when it is a KEYWORD other than the five
dispatched ones, the inner if/elif chain has no `else` and the function
returns without consuming anything. -/
def parseStatement : Nat → PState → POut Unit
  | 0, _ => POut.timeout
  | f + 1, s =>
    match s.toks.get? s.cur with
    | none => POut.synErr "Неожиданный конец файла"
    | some cur =>
      if cur.1 = "IDENTIFIER" then
        match s.toks.get? (s.cur + 1) with
        | none => POut.crash
        | some nxt =>
          if nxt.1 = "ASSIGN" then parseAssignment f s
          else POut.synErr ("Неизвестный оператор: " ++ tokenRepr cur)
      else if cur.1 = "KEYWORD" then
        if cur.2 = TokVal.vStr "if" then parseConditional f s
        else if cur.2 = TokVal.vStr "for" then parseFixedLoop f s
        else if cur.2 = TokVal.vStr "do" then parseWhileLoop f s
        else if cur.2 = TokVal.vStr "input" then parseInput f s
        else if cur.2 = TokVal.vStr "output" then parseOutput f s
        else POut.ok () s
      else if cur.1 = "DELIMITER" && cur.2 = TokVal.vStr "\x7b" then
        parseCompound f s
      else POut.synErr ("Неизвестный оператор: " ++ tokenRepr cur)

/-- `SyntaxAnalyzer.parse_declaration`: `let IDENT = Expr ;`, then insert
the entry (type, value, declared) under the identifier value. -/
def parseDeclaration : Nat → PState → POut Unit
  | 0, _ => POut.timeout
  | f + 1, s =>
    (pmatch "KEYWORD" s).bind fun _ s1 =>
    (pmatch "IDENTIFIER" s1).bind fun ident s2 =>
    (pmatch "ASSIGN" s2).bind fun _ s3 =>
    (parseExpression f s3).bind fun v s4 =>
    (pmatch "DELIMITER" s4).bind fun _ s5 =>
    POut.ok () { s5 with
      symtab := stSet s5.symtab ident.2 { ty := "variable", value := some v, declared := true } }

/-- `SyntaxAnalyzer.parse_assignment`: `IDENT = Expr ;`; update the value
of an existing entry, or insert a fresh entry without the declared flag. -/
def parseAssignment : Nat → PState → POut Unit
  | 0, _ => POut.timeout
  | f + 1, s =>
    (pmatch "IDENTIFIER" s).bind fun ident s1 =>
    (pmatch "ASSIGN" s1).bind fun _ s2 =>
    (parseExpression f s2).bind fun v s3 =>
    (pmatch "DELIMITER" s3).bind fun _ s4 =>
    POut.ok () { s4 with
      symtab :=
        if (stLookup s4.symtab ident.2).isSome then stUpdateValue s4.symtab ident.2 v
        else stSet s4.symtab ident.2 { ty := "variable", value := some v, declared := false } }

/-- `SyntaxAnalyzer.parse_conditional`: `if Expr then CS [else CS]`. -/
def parseConditional : Nat → PState → POut Unit
  | 0, _ => POut.timeout
  | f + 1, s =>
    (pmatch "KEYWORD" s).bind fun _ s1 =>
    (parseExpression f s1).bind fun _ s2 =>
    (pmatch "KEYWORD" s2).bind fun _ s3 =>
    (parseCompound f s3).bind fun _ s4 =>
    match s4.toks.get? s4.cur with
    | some t =>
        if t.2 = TokVal.vStr "else" then
          (pmatch "KEYWORD" s4).bind fun _ s5 => parseCompound f s5
        else POut.ok () s4
    | none => POut.ok () s4

/-- `SyntaxAnalyzer.parse_fixed_loop`: `for IDENT = Expr KEYWORD Expr CS`;
the loop identifier is matched but not recorded in the symbol table. -/
def parseFixedLoop : Nat → PState → POut Unit
  | 0, _ => POut.timeout
  | f + 1, s =>
    (pmatch "KEYWORD" s).bind fun _ s1 =>
    (pmatch "IDENTIFIER" s1).bind fun _ s2 =>
    (pmatch "ASSIGN" s2).bind fun _ s3 =>
    (parseExpression f s3).bind fun _ s4 =>
    (pmatch "KEYWORD" s4).bind fun _ s5 =>
    (parseExpression f s5).bind fun _ s6 =>
    parseCompound f s6

/-- `SyntaxAnalyzer.parse_while_loop`: `do CS while Expr`. -/
def parseWhileLoop : Nat → PState → POut Unit
  | 0, _ => POut.timeout
  | f + 1, s =>
    (pmatch "KEYWORD" s).bind fun _ s1 =>
    (parseCompound f s1).bind fun _ s2 =>
    (pmatch "KEYWORD" s2).bind fun _ s3 =>
    (parseExpression f s3).bind fun _ s4 => POut.ok () s4

/-- `SyntaxAnalyzer.parse_input`: `input IDENT ;`; the identifier is not
recorded in the symbol table. -/
def parseInput : Nat → PState → POut Unit
  | 0, _ => POut.timeout
  | _ + 1, s =>
    (pmatch "KEYWORD" s).bind fun _ s1 =>
    (pmatch "IDENTIFIER" s1).bind fun _ s2 =>
    (pmatch "DELIMITER" s2).bind fun _ s3 => POut.ok () s3

/-- `SyntaxAnalyzer.parse_output`: `output Expr ;`. -/
def parseOutput : Nat → PState → POut Unit
  | 0, _ => POut.timeout
  | f + 1, s =>
    (pmatch "KEYWORD" s).bind fun _ s1 =>
    (parseExpression f s1).bind fun _ s2 =>
    (pmatch "DELIMITER" s2).bind fun _ s3 => POut.ok () s3

/-- `SyntaxAnalyzer.parse_compound_statement`: `\x7b Statement* \x7d`. -/
def parseCompound : Nat → PState → POut Unit
  | 0, _ => POut.timeout
  | f + 1, s => (pmatch "DELIMITER" s).bind fun _ s1 => compoundLoop f s1

/-- The `while` loop of `parse_compound_statement`: while the cursor is in
bounds and the cursor token's value is not the closing brace, parse one
statement; then match the closing delimiter. -/
def compoundLoop : Nat → PState → POut Unit
  | 0, _ => POut.timeout
  | f + 1, s =>
    match s.toks.get? s.cur with
    | some t =>
        if t.2 ≠ TokVal.vStr "\x7d" then
          (parseStatement f s).bind fun _ s1 => compoundLoop f s1
        else (pmatch "DELIMITER" s).bind fun _ s1 => POut.ok () s1
    | none => (pmatch "DELIMITER" s).bind fun _ s1 => POut.ok () s1

/-- `SyntaxAnalyzer.parse_program`: `\x7b (Declaration | Statement)* \x7d`. -/
def parseProgram : Nat → PState → POut Unit
  | 0, _ => POut.timeout
  | f + 1, s => (pmatch "DELIMITER" s).bind fun _ s1 => programLoop f s1

/-- The `while` loop of `parse_program`: a `let` keyword dispatches to
`parse_declaration`, anything else to `parse_statement`. -/
def programLoop : Nat → PState → POut Unit
  | 0, _ => POut.timeout
  | f + 1, s =>
    match s.toks.get? s.cur with
    | some t =>
        if t.2 ≠ TokVal.vStr "\x7d" then
          (if t.1 = "KEYWORD" && t.2 = TokVal.vStr "let" then parseDeclaration f s
           else parseStatement f s).bind fun _ s1 => programLoop f s1
        else (pmatch "DELIMITER" s).bind fun _ s1 => POut.ok () s1
    | none => (pmatch "DELIMITER" s).bind fun _ s1 => POut.ok () s1

/-- `SyntaxAnalyzer.parse_expression`: `(IDENT | NUMBER) [RelOp Expr]`.
The initial unguarded access `self.tokens[self.current_token]` crashes
(IndexError) when the cursor is past the end. -/
def parseExpression : Nat → PState → POut ExprVal
  | 0, _ => POut.timeout
  | f + 1, s =>
    match s.toks.get? s.cur with
    | none => POut.crash
    | some token =>
      if token.1 = "IDENTIFIER" || token.1 = "NUMBER" then
        (pmatch token.1 s).bind fun left s1 =>
          match s1.toks.get? s1.cur with
          | some t2 =>
              if t2.1 = "REL_OP" then
                (pmatch "REL_OP" s1).bind fun op s2 =>
                (parseExpression f s2).bind fun right s3 =>
                POut.ok (ExprVal.node left.2 op.2 right) s3
              else POut.ok (ExprVal.ofTok left.2) s1
          | none => POut.ok (ExprVal.ofTok left.2) s1
      else POut.synErr ("Ожидался IDENTIFIER или NUMBER, найдено " ++ tokenRepr token)

end

/-- The result dict of `SyntaxAnalyzer.parse`, extended with the two
abnormal ways a run of the Python parser can end: an uncaught exception
(`crashed` — `parse` catches only `SyntaxError`) and divergence
(`timeout`, for every amount of fuel). -/
inductive ParseOutcome where
  | success : SymTab → ParseOutcome
  | failure : String → ParseOutcome
  | crashed : ParseOutcome
  | timeout : ParseOutcome
deriving DecidableEq

/-- `SyntaxAnalyzer.parse` on a fresh analyzer state. -/
def runParse (fuel : Nat) (toks : List Token) : ParseOutcome :=
  match parseProgram fuel { toks := toks, cur := 0, symtab := [] } with
  | .ok _ s => .success s.symtab
  | .synErr m => .failure m
  | .crash => .crashed
  | .timeout => .timeout

/-! ## Semantic analyzer -/

/-- Python `set.add`: insert if not already a member (insertion order kept;
only membership and distinctness are observed). -/
def setInsert {α : Type} [DecidableEq α] (l : List α) (a : α) : List α :=
  if a ∈ l then l else l ++ [a]

/-- The first loop of `SemanticAnalyzer.check_variables`: collect the value
of every IDENTIFIER token that immediately follows a `let` keyword token. -/
def collectDeclared (toks : List Token) : List TokVal :=
  (List.range toks.length).foldl (fun acc i =>
    match toks.get? i, toks.get? (i + 1) with
    | some t, some t2 =>
        if t.1 = "KEYWORD" ∧ t.2 = TokVal.vStr "let" ∧ t2.1 = "IDENTIFIER"
        then setInsert acc t2.2 else acc
    | _, _ => acc) []

/-- The second loop of `check_variables`: every IDENTIFIER value not in the
declared set joins the undeclared-usage set. -/
def collectUndeclared (toks : List Token) : List TokVal :=
  let declared := collectDeclared toks
  toks.foldl (fun acc t =>
    if t.1 = "IDENTIFIER" ∧ t.2 ∉ declared then setInsert acc t.2 else acc) []

/-- The errors appended by `check_variables`: one per member of the
undeclared-usage set. -/
def checkVariablesErrors (toks : List Token) : List String :=
  (collectUndeclared toks).map (fun v =>
    "Переменная " ++ pyFmt v ++ " используется до объявления.")

/-- The classification performed by `check_types` on a stored value:
`isinstance(v, int)`, then `isinstance(v, float)`, else unknown. -/
def classifyVal : ExprVal → String
  | .ofTok (TokVal.vInt _) => "int"
  | .ofTok (TokVal.vFloat _) => "float"
  | _ => "unknown"

/-- `SemanticAnalyzer.check_types`: one error per symbol-table entry of
type "variable" whose value is present and classifies as unknown. -/
def checkTypesErrors (st : SymTab) : List String :=
  st.foldl (fun acc e =>
    if e.2.ty = "variable" then
      match e.2.value with
      | some v =>
          if classifyVal v = "unknown"
          then acc ++ ["Неизвестный тип для переменной " ++ pyFmt e.1 ++ "."]
          else acc
      | none => acc
    else acc) []

/-- The parse-result dict as received by the semantic analyzer. -/
inductive ParseRes where
  | ok : SymTab → ParseRes
  | fail : String → ParseRes
deriving DecidableEq

/-- The result dict of `SemanticAnalyzer.analyze`. -/
structure SemResult where
  success : Bool
  errors : List String
  symtab : SymTab
deriving DecidableEq

/-- `SemanticAnalyzer.analyze`: copy lexical errors (prefixed), stop with a
syntax-error entry when the parse failed, otherwise run both passes;
success is emptiness of the accumulated error list. -/
def semanticAnalyze (lexErrs : List String) (pres : ParseRes) (toks : List Token) : SemResult :=
  let errs0 := lexErrs.map (fun e => "Лексическая ошибка: " ++ e)
  match pres with
  | .fail m =>
      { success := false, errors := errs0 ++ ["Синтаксическая ошибка: " ++ m], symtab := [] }
  | .ok st =>
      let errs1 := errs0 ++ checkVariablesErrors toks
      let errs2 := errs1 ++ checkTypesErrors st
      { success := errs2.isEmpty, errors := errs2, symtab := st }

/-! ## Pipeline -/

/-- The result dict of `analyze_program`. -/
structure AnalyzeResult where
  tokens : List Token
  lexicalErrors : List String
  parseResult : ParseRes
  semanticResult : SemResult
deriving DecidableEq

/-- Outcome of a run of `analyze_program`: a returned result dict, an
uncaught exception, or divergence (for the given fuel). -/
inductive AOut where
  | finished : AnalyzeResult → AOut
  | crashed : AOut
  | timeout : AOut
deriving DecidableEq

/-- `analyze_program`: tokenizer, then parser, then semantic analyzer. -/
def analyzeProgram (fuel : Nat) (src : String) : AOut :=
  let toks := (tokenize src).1
  let lexErrs := (tokenize src).2
  match runParse fuel toks with
  | .crashed => .crashed
  | .timeout => .timeout
  | .success st =>
      .finished ⟨toks, lexErrs, .ok st, semanticAnalyze lexErrs (.ok st) toks⟩
  | .failure m =>
      .finished ⟨toks, lexErrs, .fail m, semanticAnalyze lexErrs (.fail m) toks⟩

/-- Tokens of a finished run (empty on crash or divergence). -/
def aoutToks : AOut → List Token
  | .finished r => r.tokens
  | _ => []

/-- Lexical errors of a finished run. -/
def aoutLex : AOut → List String
  | .finished r => r.lexicalErrors
  | _ => []

/-- Semantic error list of a finished run. -/
def aoutErrors : AOut → List String
  | .finished r => r.semanticResult.errors
  | _ => []

/-- Parse result of a finished run. -/
def aoutParse : AOut → Option ParseRes
  | .finished r => some r.parseResult
  | _ => none

/-! ## Spec-side walk recording declaration and assignment left-hand sides.

The following family is the spec-described characterization needed to
state the symbol-table-keys claim: per the specification, `Declaration`
inserts the declared identifier and `Assignment` updates or inserts the
assigned identifier, and nothing else writes the table. The walk repeats
the parser's grammar traversal over the same token stream and cursor, but
instead of a symbol table it records, in order, every identifier that
appears on the left side of a declaration or of an assignment. It is
compared with the source-translated parser by the simulation theorem of
claim C9. -/

/-- State of the spec-side walk: token stream, cursor, and the recorded
left-hand-side identifiers. -/
structure LState where
  toks : List Token
  cur : Nat
  lhs : List TokVal

/-- Outcome of a spec-side walk step, mirroring `POut`. -/
inductive LOut (α : Type) where
  | ok : α → LState → LOut α
  | synErr : String → LOut α
  | crash : LOut α
  | timeout : LOut α

/-- Sequencing of spec-side walk steps. -/
def LOut.bind {α β : Type} (x : LOut α) (f : α → LState → LOut β) : LOut β :=
  match x with
  | .ok a s => f a s
  | .synErr m => .synErr m
  | .crash => .crash
  | .timeout => .timeout

/-- The cursor discipline of `match` on the spec-side state. -/
def lmatch (expected : String) (s : LState) : LOut Token :=
  match s.toks.get? s.cur with
  | some t =>
      if t.1 = expected then LOut.ok t { s with cur := s.cur + 1 }
      else LOut.synErr ("Ожидался " ++ expected ++ ", найдено " ++ tokenRepr t)
  | none => LOut.synErr ("Ожидался " ++ expected ++ ", найдено конец файла")

mutual

/-- Spec-side counterpart of `parse_statement`. -/
def lhsStatement : Nat → LState → LOut Unit
  | 0, _ => LOut.timeout
  | f + 1, s =>
    match s.toks.get? s.cur with
    | none => LOut.synErr "Неожиданный конец файла"
    | some cur =>
      if cur.1 = "IDENTIFIER" then
        match s.toks.get? (s.cur + 1) with
        | none => LOut.crash
        | some nxt =>
          if nxt.1 = "ASSIGN" then lhsAssignment f s
          else LOut.synErr ("Неизвестный оператор: " ++ tokenRepr cur)
      else if cur.1 = "KEYWORD" then
        if cur.2 = TokVal.vStr "if" then lhsConditional f s
        else if cur.2 = TokVal.vStr "for" then lhsFixedLoop f s
        else if cur.2 = TokVal.vStr "do" then lhsWhileLoop f s
        else if cur.2 = TokVal.vStr "input" then lhsInput f s
        else if cur.2 = TokVal.vStr "output" then lhsOutput f s
        else LOut.ok () s
      else if cur.1 = "DELIMITER" && cur.2 = TokVal.vStr "\x7b" then
        lhsCompound f s
      else LOut.synErr ("Неизвестный оператор: " ++ tokenRepr cur)

/-- Spec-side counterpart of `parse_declaration`: records the declared
identifier as a left-hand side. -/
def lhsDeclaration : Nat → LState → LOut Unit
  | 0, _ => LOut.timeout
  | f + 1, s =>
    (lmatch "KEYWORD" s).bind fun _ s1 =>
    (lmatch "IDENTIFIER" s1).bind fun ident s2 =>
    (lmatch "ASSIGN" s2).bind fun _ s3 =>
    (lhsExpression f s3).bind fun _ s4 =>
    (lmatch "DELIMITER" s4).bind fun _ s5 =>
    LOut.ok () { s5 with lhs := s5.lhs ++ [ident.2] }

/-- Spec-side counterpart of `parse_assignment`: records the assigned
identifier as a left-hand side. -/
def lhsAssignment : Nat → LState → LOut Unit
  | 0, _ => LOut.timeout
  | f + 1, s =>
    (lmatch "IDENTIFIER" s).bind fun ident s1 =>
    (lmatch "ASSIGN" s1).bind fun _ s2 =>
    (lhsExpression f s2).bind fun _ s3 =>
    (lmatch "DELIMITER" s3).bind fun _ s4 =>
    LOut.ok () { s4 with lhs := s4.lhs ++ [ident.2] }

/-- Spec-side counterpart of `parse_conditional`. -/
def lhsConditional : Nat → LState → LOut Unit
  | 0, _ => LOut.timeout
  | f + 1, s =>
    (lmatch "KEYWORD" s).bind fun _ s1 =>
    (lhsExpression f s1).bind fun _ s2 =>
    (lmatch "KEYWORD" s2).bind fun _ s3 =>
    (lhsCompound f s3).bind fun _ s4 =>
    match s4.toks.get? s4.cur with
    | some t =>
        if t.2 = TokVal.vStr "else" then
          (lmatch "KEYWORD" s4).bind fun _ s5 => lhsCompound f s5
        else LOut.ok () s4
    | none => LOut.ok () s4

/-- Spec-side counterpart of `parse_fixed_loop`: the loop identifier is not
a recorded left-hand side. -/
def lhsFixedLoop : Nat → LState → LOut Unit
  | 0, _ => LOut.timeout
  | f + 1, s =>
    (lmatch "KEYWORD" s).bind fun _ s1 =>
    (lmatch "IDENTIFIER" s1).bind fun _ s2 =>
    (lmatch "ASSIGN" s2).bind fun _ s3 =>
    (lhsExpression f s3).bind fun _ s4 =>
    (lmatch "KEYWORD" s4).bind fun _ s5 =>
    (lhsExpression f s5).bind fun _ s6 =>
    lhsCompound f s6

/-- Spec-side counterpart of `parse_while_loop`. -/
def lhsWhileLoop : Nat → LState → LOut Unit
  | 0, _ => LOut.timeout
  | f + 1, s =>
    (lmatch "KEYWORD" s).bind fun _ s1 =>
    (lhsCompound f s1).bind fun _ s2 =>
    (lmatch "KEYWORD" s2).bind fun _ s3 =>
    (lhsExpression f s3).bind fun _ s4 => LOut.ok () s4

/-- Spec-side counterpart of `parse_input`: the identifier is not a
recorded left-hand side. -/
def lhsInput : Nat → LState → LOut Unit
  | 0, _ => LOut.timeout
  | _ + 1, s =>
    (lmatch "KEYWORD" s).bind fun _ s1 =>
    (lmatch "IDENTIFIER" s1).bind fun _ s2 =>
    (lmatch "DELIMITER" s2).bind fun _ s3 => LOut.ok () s3

/-- Spec-side counterpart of `parse_output`. -/
def lhsOutput : Nat → LState → LOut Unit
  | 0, _ => LOut.timeout
  | f + 1, s =>
    (lmatch "KEYWORD" s).bind fun _ s1 =>
    (lhsExpression f s1).bind fun _ s2 =>
    (lmatch "DELIMITER" s2).bind fun _ s3 => LOut.ok () s3

/-- Spec-side counterpart of `parse_compound_statement`. -/
def lhsCompound : Nat → LState → LOut Unit
  | 0, _ => LOut.timeout
  | f + 1, s => (lmatch "DELIMITER" s).bind fun _ s1 => lhsCompoundLoop f s1

/-- Spec-side counterpart of the loop of `parse_compound_statement`. -/
def lhsCompoundLoop : Nat → LState → LOut Unit
  | 0, _ => LOut.timeout
  | f + 1, s =>
    match s.toks.get? s.cur with
    | some t =>
        if t.2 ≠ TokVal.vStr "\x7d" then
          (lhsStatement f s).bind fun _ s1 => lhsCompoundLoop f s1
        else (lmatch "DELIMITER" s).bind fun _ s1 => LOut.ok () s1
    | none => (lmatch "DELIMITER" s).bind fun _ s1 => LOut.ok () s1

/-- Spec-side counterpart of `parse_program`. -/
def lhsProgram : Nat → LState → LOut Unit
  | 0, _ => LOut.timeout
  | f + 1, s => (lmatch "DELIMITER" s).bind fun _ s1 => lhsProgramLoop f s1

/-- Spec-side counterpart of the loop of `parse_program`. -/
def lhsProgramLoop : Nat → LState → LOut Unit
  | 0, _ => LOut.timeout
  | f + 1, s =>
    match s.toks.get? s.cur with
    | some t =>
        if t.2 ≠ TokVal.vStr "\x7d" then
          (if t.1 = "KEYWORD" && t.2 = TokVal.vStr "let" then lhsDeclaration f s
           else lhsStatement f s).bind fun _ s1 => lhsProgramLoop f s1
        else (lmatch "DELIMITER" s).bind fun _ s1 => LOut.ok () s1
    | none => (lmatch "DELIMITER" s).bind fun _ s1 => LOut.ok () s1

/-- Spec-side counterpart of `parse_expression`: same traversal, no
recorded left-hand side. -/
def lhsExpression : Nat → LState → LOut Unit
  | 0, _ => LOut.timeout
  | f + 1, s =>
    match s.toks.get? s.cur with
    | none => LOut.crash
    | some token =>
      if token.1 = "IDENTIFIER" || token.1 = "NUMBER" then
        (lmatch token.1 s).bind fun _ s1 =>
          match s1.toks.get? s1.cur with
          | some t2 =>
              if t2.1 = "REL_OP" then
                (lmatch "REL_OP" s1).bind fun _ s2 =>
                (lhsExpression f s2).bind fun _ s3 =>
                LOut.ok () s3
              else LOut.ok () s1
          | none => LOut.ok () s1
      else LOut.synErr ("Ожидался IDENTIFIER или NUMBER, найдено " ++ tokenRepr token)

end

/-- Simulation shape, at a given amount of fuel, between a source-side
parsing function and its spec-side walk: whenever the source parser returns
normally, the walk returns normally over the same tokens with the same
cursor motion, appending some batch of left-hand-side identifiers whose
members are exactly the keys the parser added to the symbol table. -/
def SimAt {α : Type} (f : Nat) (pf : Nat → PState → POut α) (sf : Nat → LState → LOut Unit) : Prop :=
  ∀ s a sOut, pf f s = POut.ok a sOut →
    sOut.toks = s.toks ∧
    ∃ dl : List TokVal,
      (∀ l, sf f ⟨s.toks, s.cur, l⟩ = LOut.ok () ⟨s.toks, sOut.cur, l ++ dl⟩) ∧
      (∀ v, v ∈ sOut.symtab.map Prod.fst ↔ v ∈ s.symtab.map Prod.fst ∨ v ∈ dl)

/-! ## Theorems -/

/-- Claim C1. The spec states that no error crosses the pipeline boundary
as an uncatchable failure and that every syntax problem surfaces as a
structured parse failure. The code clearly intends this (`parse` converts
raised `SyntaxError`s into a structured failure dict, and `parse_statement`
begins with an explicit end-of-input guard), but the lookahead
`self.tokens[self.current_token + 1]` in `parse_statement` is unguarded: on
the source `\x7b x` — whose statement starts with an IDENTIFIER that is the
last token — it raises `IndexError`, which `except SyntaxError` does not
catch, so `analyze_program` dies instead of returning a result object. -/
theorem c1_crash_on_trailing_identifier_statement :
    analyzeProgram 50 "\x7b x" = AOut.crashed := rfl

/-- Claim C8. The cursor itself never moves past the end of the stream
(`match` advances only under its bounds check), but the second half of the
claim — that an exhausted stream always yields an end-of-input failure —
is violated by `parse_expression`, which reads
`self.tokens[self.current_token]` without a bounds check: on
`\x7b let x = ` (expression required, stream exhausted) the code raises
an uncaught `IndexError` rather than producing an end-of-input failure. -/
theorem c8_crash_at_end_of_input_in_expression :
    analyzeProgram 50 "\x7b let x = " = AOut.crashed := rfl

/-- For the C2 divergence argument: inside the nested block the cursor
rests on the `let` keyword; `parse_statement` dispatches on KEYWORD but has
no case for `let` (and no final `else` inside the KEYWORD branch), so it
returns without consuming anything. -/
theorem c2aux_statement_noop (k : Nat) :
    parseStatement (k + 1) ⟨(tokenize "\x7b \x7b let x = 1 ; \x7d \x7d").1, 2, []⟩ =
      POut.ok () ⟨(tokenize "\x7b \x7b let x = 1 ; \x7d \x7d").1, 2, []⟩ := rfl

/-- For the C2 divergence argument: the compound-statement loop therefore
never advances and exhausts any amount of fuel. -/
theorem c2aux_compound_loop (k : Nat) :
    compoundLoop k ⟨(tokenize "\x7b \x7b let x = 1 ; \x7d \x7d").1, 2, []⟩ = POut.timeout := by
  induction k with
  | zero => rfl
  | succ k ih =>
      cases k with
      | zero => rfl
      | succ k2 => exact ih

/-- For the C2 divergence argument: the statement beginning at the inner
opening brace runs into the diverging compound loop. -/
theorem c2aux_statement (g : Nat) :
    parseStatement g ⟨(tokenize "\x7b \x7b let x = 1 ; \x7d \x7d").1, 1, []⟩ = POut.timeout := by
  rcases g with _ | g
  · rfl
  rcases g with _ | k
  · rfl
  · exact c2aux_compound_loop k

/-- For the C2 divergence argument: the program-level loop therefore also
diverges. -/
theorem c2aux_program_loop (g : Nat) :
    programLoop g ⟨(tokenize "\x7b \x7b let x = 1 ; \x7d \x7d").1, 1, []⟩ = POut.timeout := by
  cases g with
  | zero => rfl
  | succ g =>
      show (parseStatement g ⟨(tokenize "\x7b \x7b let x = 1 ; \x7d \x7d").1, 1, []⟩).bind
          (fun _ s1 => programLoop g s1) = POut.timeout
      rw [c2aux_statement g]
      rfl

/-- A run whose parse phase exhausts every amount of fuel makes the whole
pipeline diverge. -/
theorem analyze_timeout_of_runParse (fuel : Nat) (src : String)
    (h : runParse fuel (tokenize src).1 = ParseOutcome.timeout) :
    analyzeProgram fuel src = AOut.timeout := by
  simp only [analyzeProgram, h]

/-- Claim C2. The spec states that every phase terminates unconditionally
and in particular that the parser's statement loops terminate for every
token sequence. The tokenizer and the checker do terminate (they are
structurally recursive functions here), but the parser does not: on the
source `\x7b \x7b let x = 1 ; \x7d \x7d` the inner compound-statement loop
meets a `let` keyword, `parse_statement` silently consumes nothing (its
KEYWORD dispatch has no `let` case and no `else`), and the loop spins
forever — the run times out for every amount of fuel, i.e. diverges. The
code's own final `else: raise SyntaxError("Неизвестный оператор…")` shows
the intent to reject unknown statements rather than loop. -/
theorem c2_parser_diverges_on_nested_declaration (fuel : Nat) :
    analyzeProgram fuel "\x7b \x7b let x = 1 ; \x7d \x7d" = AOut.timeout := by
  apply analyze_timeout_of_runParse
  cases fuel with
  | zero => rfl
  | succ f =>
      show (match parseProgram (f + 1)
          ⟨(tokenize "\x7b \x7b let x = 1 ; \x7d \x7d").1, 0, []⟩ with
        | .ok _ s => ParseOutcome.success s.symtab
        | .synErr m => ParseOutcome.failure m
        | .crash => ParseOutcome.crashed
        | .timeout => ParseOutcome.timeout) = ParseOutcome.timeout
      have h1 : parseProgram (f + 1)
          ⟨(tokenize "\x7b \x7b let x = 1 ; \x7d \x7d").1, 0, []⟩ = POut.timeout := by
        show programLoop f ⟨(tokenize "\x7b \x7b let x = 1 ; \x7d \x7d").1, 1, []⟩ = POut.timeout
        exact c2aux_program_loop f
      rw [h1]

/-- Claim C4. The `match` helper consumes the cursor token exactly when it
has the expected kind; otherwise it raises a failure naming the expected
kind and the found token, or the end-of-input marker when the stream is
exhausted (the cursor is untouched — the raised failure aborts the parse).
On the token sequence of `\x7b let y 20 ; \x7d` the parse fails with an
error naming the expected ASSIGN kind and the NUMBER token found. -/
theorem c4_match_contract :
    (∀ (toks : List Token) (cur : Nat) (st : SymTab) (e : String) (t : Token),
        toks.get? cur = some t → t.1 = e →
        pmatch e ⟨toks, cur, st⟩ = POut.ok t ⟨toks, cur + 1, st⟩) ∧
    (∀ (toks : List Token) (cur : Nat) (st : SymTab) (e : String) (t : Token),
        toks.get? cur = some t → ¬ t.1 = e →
        pmatch e ⟨toks, cur, st⟩ =
          POut.synErr ("Ожидался " ++ e ++ ", найдено " ++ tokenRepr t)) ∧
    (∀ (toks : List Token) (cur : Nat) (st : SymTab) (e : String),
        toks.get? cur = none →
        pmatch e ⟨toks, cur, st⟩ =
          POut.synErr ("Ожидался " ++ e ++ ", найдено конец файла")) ∧
    (aoutParse (analyzeProgram 50 "\x7b let y 20 ; \x7d") =
      some (ParseRes.fail "Ожидался ASSIGN, найдено (\x27NUMBER\x27, 20)")) := by
  refine ⟨?_, ?_, ?_, by decide⟩
  · intro toks cur st e t hget hkind
    rw [List.get?_eq_getElem?] at hget
    simp [pmatch, hget, hkind]
  · intro toks cur st e t hget hkind
    rw [List.get?_eq_getElem?] at hget
    simp [pmatch, hget, hkind]
  · intro toks cur st e hget
    rw [List.get?_eq_getElem?] at hget
    simp [pmatch, hget]

/-- Witness for C4: the three cases of the `match` contract at concrete
inputs. -/
theorem c4_match_contract_witness :
    pmatch "ASSIGN" ⟨[("ASSIGN", TokVal.vStr "=")], 0, []⟩ =
      POut.ok ("ASSIGN", TokVal.vStr "=") ⟨[("ASSIGN", TokVal.vStr "=")], 1, []⟩ ∧
    pmatch "ASSIGN" ⟨[("NUMBER", TokVal.vInt 20)], 0, []⟩ =
      POut.synErr "Ожидался ASSIGN, найдено (\x27NUMBER\x27, 20)" ∧
    pmatch "ASSIGN" ⟨[], 0, []⟩ =
      POut.synErr "Ожидался ASSIGN, найдено конец файла" := by
  refine ⟨?_, ?_, ?_⟩
  · exact c4_match_contract.1 [("ASSIGN", TokVal.vStr "=")] 0 [] "ASSIGN"
      ("ASSIGN", TokVal.vStr "=") rfl rfl
  · exact c4_match_contract.2.1 [("NUMBER", TokVal.vInt 20)] 0 [] "ASSIGN"
      ("NUMBER", TokVal.vInt 20) rfl (by decide)
  · exact c4_match_contract.2.2.1 [] 0 [] "ASSIGN" rfl

/-- Claim C6, amended. The error list of the semantic result is the
lexical errors (prefixed, in order) followed by the pass (a) and pass (b)
errors when the parse succeeded, but followed by a single syntax-error
entry — of none of those three kinds — when the parse failed; success
holds exactly when the lexical errors are empty, the parse succeeded and
both passes were silent. -/
theorem c6_error_aggregation (lexErrs : List String) (pres : ParseRes) (toks : List Token) :
    ((semanticAnalyze lexErrs pres toks).errors =
      lexErrs.map (fun e => "Лексическая ошибка: " ++ e) ++
        (match pres with
         | .fail m => ["Синтаксическая ошибка: " ++ m]
         | .ok st => checkVariablesErrors toks ++ checkTypesErrors st)) ∧
    ((semanticAnalyze lexErrs pres toks).success = true ↔
      lexErrs = [] ∧ ∃ st, pres = ParseRes.ok st ∧
        checkVariablesErrors toks = [] ∧ checkTypesErrors st = []) := by
  cases pres with
  | fail m => simp [semanticAnalyze]
  | ok st =>
      constructor
      · simp [semanticAnalyze]
      · simp [semanticAnalyze, List.isEmpty_iff, List.append_eq_nil, List.map_eq_nil_iff]

/-- Counterexample to C6 as stated: on the source `\x7b` the parse fails,
there are no lexical errors and both passes would be silent, yet the error
list is the nonempty singleton syntax-error entry — so the list does not
consist of lexical entries followed by pass (a) and pass (b) entries. -/
theorem c6_syntax_error_entry_counterexample :
    aoutLex (analyzeProgram 50 "\x7b") = [] ∧
    checkVariablesErrors (aoutToks (analyzeProgram 50 "\x7b")) = [] ∧
    aoutErrors (analyzeProgram 50 "\x7b") =
      ["Синтаксическая ошибка: Ожидался DELIMITER, найдено конец файла"] :=
  ⟨rfl, rfl, rfl⟩

/-- Generalized-accumulator form of `check_types`: the fold appends one
message per entry of type "variable" whose value is present and
unclassifiable. -/
theorem checkTypes_foldl (st : SymTab) (acc : List String) :
    st.foldl (fun acc e =>
      if e.2.ty = "variable" then
        match e.2.value with
        | some v =>
            if classifyVal v = "unknown"
            then acc ++ ["Неизвестный тип для переменной " ++ pyFmt e.1 ++ "."]
            else acc
        | none => acc
      else acc) acc =
    acc ++ (st.filter (fun e => decide (e.2.ty = "variable") &&
        (match e.2.value with
         | some v => decide (classifyVal v = "unknown")
         | none => false))).map
      (fun e => "Неизвестный тип для переменной " ++ pyFmt e.1 ++ ".") := by
  induction st generalizing acc with
  | nil => simp
  | cons e rest ih =>
      by_cases h1 : e.2.ty = "variable"
      · cases hv : e.2.value with
        | none => simp [List.foldl_cons, h1, hv, List.filter_cons, ih]
        | some v =>
            by_cases h2 : classifyVal v = "unknown"
            · simp [List.foldl_cons, h1, hv, h2, List.filter_cons, ih]
            · simp [List.foldl_cons, h1, hv, h2, List.filter_cons, ih]
      · simp [List.foldl_cons, h1, List.filter_cons, ih]

/-- Claim C7. A NUMBER token's value is an integer exactly when the
matched text has no decimal point and no exponent marker (`10` is an
integer, `10.5` and `1E3` are floats), and the type-check pass emits its
message exactly for the symbol-table entries of type "variable" whose
value is present and classifies neither as integer nor as float — an
entry with no value never produces one. -/
theorem c7_number_classification_and_type_errors :
    (∀ text : String, (∃ n, numValue text = TokVal.vInt n) ↔
      (text.toList.contains '.' = false ∧ text.toList.contains 'E' = false ∧
        text.toList.contains 'e' = false)) ∧
    (tokenize "10").1 = [("NUMBER", TokVal.vInt 10)] ∧
    (tokenize "10.5").1 = [("NUMBER", TokVal.vFloat "10.5")] ∧
    (tokenize "1E3").1 = [("NUMBER", TokVal.vFloat "1E3")] ∧
    (∀ st : SymTab, checkTypesErrors st =
      (st.filter (fun e => decide (e.2.ty = "variable") &&
          (match e.2.value with
           | some v => decide (classifyVal v = "unknown")
           | none => false))).map
        (fun e => "Неизвестный тип для переменной " ++ pyFmt e.1 ++ ".")) := by
  refine ⟨?_, by decide, by decide, by decide, ?_⟩
  · intro text
    by_cases h1 : '.' ∈ text.data <;> by_cases h2 : 'E' ∈ text.data <;>
      by_cases h3 : 'e' ∈ text.data <;> simp [numValue, h1, h2, h3]
  · intro st
    exact checkTypes_foldl st []

/-- Membership in a set after a Python `set.add`. -/
theorem mem_setInsert {α : Type} [DecidableEq α] (l : List α) (a b : α) :
    a ∈ setInsert l b ↔ a ∈ l ∨ a = b := by
  by_cases h : b ∈ l
  · simp only [setInsert, if_pos h]
    constructor
    · exact Or.inl
    · rintro (h1 | rfl)
      · exact h1
      · exact h
  · simp [setInsert, h]

/-- A Python `set.add` keeps the element list duplicate-free. -/
theorem nodup_setInsert {α : Type} [DecidableEq α] (l : List α) (b : α) (h : l.Nodup) :
    (setInsert l b).Nodup := by
  by_cases hb : b ∈ l
  · simpa [setInsert, hb] using h
  · simp [setInsert, hb, List.nodup_append, h]

/-- Membership characterization of the declared-variables loop of
`check_variables`, with a generalized accumulator. -/
theorem mem_collectDeclared_foldl (toks : List Token) (v : TokVal) :
    ∀ (idxs : List Nat) (acc : List TokVal),
      (v ∈ idxs.foldl (fun acc i =>
        match toks.get? i, toks.get? (i + 1) with
        | some t, some t2 =>
            if t.1 = "KEYWORD" ∧ t.2 = TokVal.vStr "let" ∧ t2.1 = "IDENTIFIER"
            then setInsert acc t2.2 else acc
        | _, _ => acc) acc) ↔
      (v ∈ acc ∨ ∃ i ∈ idxs, toks.get? i = some ("KEYWORD", TokVal.vStr "let") ∧
        ∃ t2, toks.get? (i + 1) = some t2 ∧ t2.1 = "IDENTIFIER" ∧ t2.2 = v) := by
  intro idxs
  induction idxs with
  | nil => intro acc; simp
  | cons i rest ih =>
      intro acc
      rw [List.foldl_cons, ih]
      have hstep : (v ∈ (match toks.get? i, toks.get? (i + 1) with
          | some t, some t2 =>
              if t.1 = "KEYWORD" ∧ t.2 = TokVal.vStr "let" ∧ t2.1 = "IDENTIFIER"
              then setInsert acc t2.2 else acc
          | _, _ => acc)) ↔
          (v ∈ acc ∨ (toks.get? i = some ("KEYWORD", TokVal.vStr "let") ∧
            ∃ t2, toks.get? (i + 1) = some t2 ∧ t2.1 = "IDENTIFIER" ∧ t2.2 = v)) := by
        rcases hti : toks.get? i with _ | t
        · simp [hti]
        · rcases hti2 : toks.get? (i + 1) with _ | t2
          · simp [hti, hti2]
          · obtain ⟨tk, tv⟩ := t
            obtain ⟨tk2, tv2⟩ := t2
            by_cases hc : tk = "KEYWORD" ∧ tv = TokVal.vStr "let" ∧ tk2 = "IDENTIFIER"
            · obtain ⟨hc1, hc2, hc3⟩ := hc
              subst hc1; subst hc2; subst hc3
              simp [hti, hti2, mem_setInsert]
              tauto
            · simp only [hti, hti2, if_neg hc]
              simp only [Option.some.injEq, Prod.mk.injEq]
              constructor
              · exact Or.inl
              · rintro (h1 | ⟨⟨hk, hv⟩, t2, ⟨rfl, rfl⟩, h3, h4⟩)
                · exact h1
                · exact absurd ⟨hk, hv, h3⟩ hc
      rw [hstep]
      simp only [List.mem_cons]
      constructor
      · rintro (⟨h1 | h2⟩ | ⟨i2, hi2, h3⟩)
        · exact Or.inl h1
        · exact Or.inr ⟨i, Or.inl rfl, h2⟩
        · exact Or.inr ⟨i2, Or.inr hi2, h3⟩
      · rintro (h1 | ⟨i2, (rfl | hi2), h3⟩)
        · exact Or.inl (Or.inl h1)
        · exact Or.inl (Or.inr h3)
        · exact Or.inr ⟨i2, hi2, h3⟩

/-- A declared-set member is exactly the value of an IDENTIFIER token that
immediately follows a `let` keyword token. -/
theorem mem_collectDeclared (toks : List Token) (v : TokVal) :
    v ∈ collectDeclared toks ↔
      ∃ i, toks.get? i = some ("KEYWORD", TokVal.vStr "let") ∧
        ∃ t2, toks.get? (i + 1) = some t2 ∧ t2.1 = "IDENTIFIER" ∧ t2.2 = v := by
  unfold collectDeclared
  rw [mem_collectDeclared_foldl]
  simp only [List.mem_nil_iff, false_or, List.mem_range]
  constructor
  · rintro ⟨i, _, h⟩
    exact ⟨i, h⟩
  · rintro ⟨i, h1, h2⟩
    refine ⟨i, ?_, h1, h2⟩
    have := List.get?_eq_some.mp h1
    exact this.1

/-- Membership characterization of the undeclared-usage loop of
`check_variables`, with a generalized accumulator and declared set. -/
theorem mem_collectUndeclared_foldl (dec : List TokVal) (v : TokVal) :
    ∀ (l : List Token) (acc : List TokVal),
      (v ∈ l.foldl (fun acc t =>
        if t.1 = "IDENTIFIER" ∧ t.2 ∉ dec then setInsert acc t.2 else acc) acc) ↔
      (v ∈ acc ∨ ∃ t ∈ l, t.1 = "IDENTIFIER" ∧ t.2 ∉ dec ∧ t.2 = v) := by
  intro l
  induction l with
  | nil => intro acc; simp
  | cons t rest ih =>
      intro acc
      rw [List.foldl_cons, ih]
      have hstep : (v ∈ if t.1 = "IDENTIFIER" ∧ t.2 ∉ dec then setInsert acc t.2 else acc) ↔
          (v ∈ acc ∨ (t.1 = "IDENTIFIER" ∧ t.2 ∉ dec ∧ t.2 = v)) := by
        by_cases hc : t.1 = "IDENTIFIER" ∧ t.2 ∉ dec
        · rw [if_pos hc, mem_setInsert]
          constructor
          · rintro (h1 | h1)
            · exact Or.inl h1
            · exact Or.inr ⟨hc.1, hc.2, h1.symm⟩
          · rintro (h1 | ⟨_, _, h3⟩)
            · exact Or.inl h1
            · exact Or.inr h3.symm
        · rw [if_neg hc]
          constructor
          · exact Or.inl
          · rintro (h1 | ⟨h2, h3, _⟩)
            · exact h1
            · exact absurd ⟨h2, h3⟩ hc
      rw [hstep]
      simp only [List.mem_cons]
      constructor
      · rintro (⟨h1 | h2⟩ | ⟨t2, ht2, h3⟩)
        · exact Or.inl h1
        · exact Or.inr ⟨t, Or.inl rfl, h2⟩
        · exact Or.inr ⟨t2, Or.inr ht2, h3⟩
      · rintro (h1 | ⟨t2, (rfl | ht2), h3⟩)
        · exact Or.inl (Or.inl h1)
        · exact Or.inl (Or.inr h3)
        · exact Or.inr ⟨t2, ht2, h3⟩

/-- The undeclared-usage loop builds a duplicate-free list. -/
theorem nodup_collectUndeclared_foldl (dec : List TokVal) :
    ∀ (l : List Token) (acc : List TokVal), acc.Nodup →
      (l.foldl (fun acc t =>
        if t.1 = "IDENTIFIER" ∧ t.2 ∉ dec then setInsert acc t.2 else acc) acc).Nodup := by
  intro l
  induction l with
  | nil => intro acc h; simpa using h
  | cons t rest ih =>
      intro acc h
      rw [List.foldl_cons]
      apply ih
      by_cases hc : t.1 = "IDENTIFIER" ∧ t.2 ∉ dec
      · rw [if_pos hc]; exact nodup_setInsert acc t.2 h
      · rwa [if_neg hc]

/-- Claim C5. The pass run when the parse succeeded reports an identifier
as used before declaration iff it occurs as an IDENTIFIER token and no
`let` keyword token anywhere in the stream is immediately followed by an
IDENTIFIER token carrying it; one error is emitted per distinct such
identifier (the undeclared-usage set is duplicate-free, and the error list
maps one message over it). -/
theorem c5_undeclared_reporting (toks : List Token) (v : TokVal) :
    (checkVariablesErrors toks = (collectUndeclared toks).map
      (fun v => "Переменная " ++ pyFmt v ++ " используется до объявления.")) ∧
    (collectUndeclared toks).Nodup ∧
    (v ∈ collectUndeclared toks ↔
      ((∃ t ∈ toks, t.1 = "IDENTIFIER" ∧ t.2 = v) ∧
        ¬ ∃ i, toks.get? i = some ("KEYWORD", TokVal.vStr "let") ∧
          ∃ t2, toks.get? (i + 1) = some t2 ∧ t2.1 = "IDENTIFIER" ∧ t2.2 = v)) := by
  refine ⟨rfl, ?_, ?_⟩
  · exact nodup_collectUndeclared_foldl (collectDeclared toks) toks [] List.nodup_nil
  · show v ∈ List.foldl _ [] toks ↔ _
    rw [mem_collectUndeclared_foldl]
    simp only [List.mem_nil_iff, false_or]
    constructor
    · rintro ⟨t, ht, h1, h2, rfl⟩
      exact ⟨⟨t, ht, h1, rfl⟩, fun hex => h2 ((mem_collectDeclared toks t.2).mpr hex)⟩
    · rintro ⟨⟨t, ht, h1, rfl⟩, h2⟩
      exact ⟨t, ht, h1, fun hd => h2 ((mem_collectDeclared toks t.2).mp hd), rfl⟩

/-- A string beginning with a digit is matched by the NUMBER rule. -/
theorem matchNumber_ne_none_of_digit (c : Char) (rest : List Char) (h : c.isDigit = true) :
    matchNumber (c :: rest) ≠ none := by
  simp [matchNumber, countLeading, h]

/-- A nonempty leading run forces a head character satisfying the class. -/
theorem countLeading_ne_zero (p : Char → Bool) (s : List Char)
    (h : countLeading p s ≠ 0) : ∃ c rest, s = c :: rest ∧ p c = true := by
  cases s with
  | nil => simp [countLeading] at h
  | cons c rest =>
      by_cases hp : p c
      · exact ⟨c, rest, rfl, hp⟩
      · simp [countLeading, hp] at h

/-- A match of a run-plus-suffix rule starts with a character of the run
class. -/
theorem matchRunSuffix_head (p : Char → Bool) (a b : Char) (s : List Char) (n : Nat)
    (h : matchRunSuffix p a b s = some n) : ∃ c rest, s = c :: rest ∧ p c = true := by
  apply countLeading_ne_zero p s
  intro h0
  rw [matchRunSuffix, h0] at h
  simp at h

/-- A match of the DEC_NUMBER rule starts with a digit. -/
theorem matchDec_head (s : List Char) (n : Nat)
    (h : matchDec s = some n) : ∃ c rest, s = c :: rest ∧ c.isDigit = true := by
  apply countLeading_ne_zero Char.isDigit s
  intro h0
  rw [matchDec, h0] at h
  simp at h

/-- The alternation never resolves to the BIN, OCT or DEC rule: each of
those requires a leading digit, and the earlier NUMBER rule already
matches at any leading digit. -/
theorem unionMatch_kind (pw : Bool) (s : List Char) (k : String) (n : Nat)
    (h : unionMatch pw s = some (k, n)) :
    k ≠ "BIN_NUMBER" ∧ k ≠ "OCT_NUMBER" ∧ k ≠ "DEC_NUMBER" := by
  unfold unionMatch tokenSpecification at h
  simp only [List.map_cons, List.map_nil] at h
  have digitBeatsBin : ∀ (q : Char → Bool) (a b : Char) (m : Nat),
      (∀ c, q c = true → c.isDigit = true) →
      matchRunSuffix q a b s = some m → matchNumber s ≠ none := by
    intro q a b m hq hm
    obtain ⟨c, rest, rfl, hc⟩ := matchRunSuffix_head q a b s m hm
    exact matchNumber_ne_none_of_digit c rest (hq c hc)
  cases h1 : matchComment s with
  | some v => rw [h1] at h; simp [firstSome] at h; simp [← h.1]
  | none =>
  rw [h1] at h; simp only [Option.map_none', firstSome] at h
  cases h2 : matchNumber s with
  | some v => rw [h2] at h; simp [firstSome] at h; simp [← h.1]
  | none =>
  rw [h2] at h; simp only [Option.map_none', firstSome] at h
  cases h3 : matchBin s with
  | some v =>
      exact absurd h2 (digitBeatsBin _ _ _ v
        (by intro c hc
            rcases Bool.or_eq_true_iff.mp hc with hc | hc
            · have hc2 : c = '0' := of_decide_eq_true hc
              subst hc2; rfl
            · have hc2 : c = '1' := of_decide_eq_true hc
              subst hc2; rfl) h3)
  | none =>
  rw [h3] at h; simp only [Option.map_none', firstSome] at h
  cases h4 : matchOct s with
  | some v =>
      exact absurd h2 (digitBeatsBin _ _ _ v
        (by intro c hc
            have h5 := Bool.and_eq_true_iff.mp hc
            have hle : c ≤ '7' := of_decide_eq_true h5.2
            have hge : '0' ≤ c := of_decide_eq_true h5.1
            have h79 : ('7' : Char) ≤ '9' := by decide
            simp [Char.isDigit]
            exact ⟨hge, le_trans hle h79⟩) h4)
  | none =>
  rw [h4] at h; simp only [Option.map_none', firstSome] at h
  cases h5 : matchDec s with
  | some v =>
      exfalso
      obtain ⟨c, rest, rfl, hc⟩ := matchDec_head s v h5
      exact matchNumber_ne_none_of_digit c rest hc h2
  | none =>
  rw [h5] at h; simp only [Option.map_none', firstSome] at h
  cases h6 : matchHex s with
  | some v => rw [h6] at h; simp [firstSome] at h; simp [← h.1]
  | none =>
  rw [h6] at h; simp only [Option.map_none', firstSome] at h
  cases h7 : matchKeyword pw s with
  | some v => rw [h7] at h; simp [firstSome] at h; simp [← h.1]
  | none =>
  rw [h7] at h; simp only [Option.map_none', firstSome] at h
  cases h8 : matchIdent s with
  | some v => rw [h8] at h; simp [firstSome] at h; simp [← h.1]
  | none =>
  rw [h8] at h; simp only [Option.map_none', firstSome] at h
  cases h9 : matchAssign s with
  | some v => rw [h9] at h; simp [firstSome] at h; simp [← h.1]
  | none =>
  rw [h9] at h; simp only [Option.map_none', firstSome] at h
  cases h10 : matchRelOp s with
  | some v => rw [h10] at h; simp [firstSome] at h; simp [← h.1]
  | none =>
  rw [h10] at h; simp only [Option.map_none', firstSome] at h
  cases h11 : matchAddOp s with
  | some v => rw [h11] at h; simp [firstSome] at h; simp [← h.1]
  | none =>
  rw [h11] at h; simp only [Option.map_none', firstSome] at h
  cases h12 : matchMulOp s with
  | some v => rw [h12] at h; simp [firstSome] at h; simp [← h.1]
  | none =>
  rw [h12] at h; simp only [Option.map_none', firstSome] at h
  cases h13 : matchUnary s with
  | some v => rw [h13] at h; simp [firstSome] at h; simp [← h.1]
  | none =>
  rw [h13] at h; simp only [Option.map_none', firstSome] at h
  cases h14 : matchDelim s with
  | some v => rw [h14] at h; simp [firstSome] at h; simp [← h.1]
  | none =>
  rw [h14] at h; simp only [Option.map_none', firstSome] at h
  cases h15 : matchWs s with
  | some v => rw [h15] at h; simp [firstSome] at h; simp [← h.1]
  | none =>
  rw [h15] at h; simp only [Option.map_none', firstSome] at h
  cases h16 : matchNewline s with
  | some v => rw [h16] at h; simp [firstSome] at h; simp [← h.1]
  | none => rw [h16] at h; simp [firstSome] at h

/-- Every raw scan match carries a rule name other than BIN, OCT or DEC. -/
theorem scanAux_kinds (fc : Nat) : ∀ (pw : Bool) (pos : Nat) (l : List Char)
    (m : String × List Char × Nat), m ∈ scanAux fc pw pos l →
    m.1 ≠ "BIN_NUMBER" ∧ m.1 ≠ "OCT_NUMBER" ∧ m.1 ≠ "DEC_NUMBER" := by
  induction fc with
  | zero => intro pw pos l m h; simp [scanAux] at h
  | succ fc ih =>
      intro pw pos l m h
      cases l with
      | nil => simp [scanAux] at h
      | cons c rest =>
          rw [scanAux] at h
          cases hu : unionMatch pw (c :: rest) with
          | none =>
              rw [hu] at h
              exact ih _ _ _ _ h
          | some kn =>
              obtain ⟨k, n⟩ := kn
              rw [hu] at h
              rcases List.mem_cons.mp h with rfl | h2
              · exact unionMatch_kind pw (c :: rest) k n hu
              · exact ih _ _ _ _ h2

/-- Claim C10. `tokenize` never emits a BIN_NUMBER, OCT_NUMBER or
DEC_NUMBER token — any text those rules could match starts with a digit,
where the higher-priority NUMBER rule already matches — and the suffixed
literals split into a NUMBER token followed by the leftover suffix. -/
theorem c10_suffix_number_rules_unreachable :
    (∀ (src : String) (t : Token), t ∈ (tokenize src).1 →
      t.1 ≠ "BIN_NUMBER" ∧ t.1 ≠ "OCT_NUMBER" ∧ t.1 ≠ "DEC_NUMBER") ∧
    (tokenize "101b").1 = [("NUMBER", TokVal.vInt 101), ("IDENTIFIER", TokVal.vStr "b")] ∧
    (tokenize "377o").1 = [("NUMBER", TokVal.vInt 377), ("IDENTIFIER", TokVal.vStr "o")] ∧
    (tokenize "25d").1 = [("NUMBER", TokVal.vInt 25), ("IDENTIFIER", TokVal.vStr "d")] := by
  refine ⟨?_, rfl, rfl, rfl⟩
  intro src t ht
  have ht2 : t ∈ (rawScan src).filterMap (fun m =>
      let kind := m.1
      let text := String.mk m.2.1
      if kind = "WHITESPACE" || kind = "NEWLINE" || kind = "COMMENT" then none
      else if kind = "NUMBER" then some (kind, numValue text)
      else some (kind, TokVal.vStr text)) := ht
  obtain ⟨m, hm, hf⟩ := List.mem_filterMap.mp ht2
  have hk := scanAux_kinds src.length false 0 src.toList m hm
  have hkind : t.1 = m.1 := by
    dsimp only at hf
    by_cases hd : (m.1 = "WHITESPACE" || m.1 = "NEWLINE" || m.1 = "COMMENT") = true
    · rw [if_pos hd] at hf
      cases hf
    · rw [if_neg hd] at hf
      by_cases hn : m.1 = "NUMBER"
      · rw [if_pos hn] at hf
        rw [← Option.some.inj hf]
      · rw [if_neg hn] at hf
        rw [← Option.some.inj hf]
  rw [hkind]
  exact hk

/-- Witness for C10: the suffixed binary literal `101b` lexes as a NUMBER
token, which is none of the three unreachable kinds. -/
theorem c10_suffix_number_rules_unreachable_witness :
    ("NUMBER", TokVal.vInt 101) ∈ (tokenize "101b").1 ∧
    (("NUMBER", TokVal.vInt 101) : Token).1 ≠ "BIN_NUMBER" ∧
    (("NUMBER", TokVal.vInt 101) : Token).1 ≠ "OCT_NUMBER" ∧
    (("NUMBER", TokVal.vInt 101) : Token).1 ≠ "DEC_NUMBER" :=
  ⟨by decide,
    c10_suffix_number_rules_unreachable.1 "101b" ("NUMBER", TokVal.vInt 101) (by decide)⟩

/-- Inversion of a successful parsing bind. -/
theorem POut.bind_eq_ok {α β : Type} (x : POut α) (g : α → PState → POut β)
    (b : β) (sOut : PState) :
    x.bind g = POut.ok b sOut ↔ ∃ a s1, x = POut.ok a s1 ∧ g a s1 = POut.ok b sOut := by
  cases x with
  | ok a s =>
      constructor
      · intro h
        exact ⟨a, s, rfl, h⟩
      · rintro ⟨a1, s1, heq, h⟩
        cases heq
        exact h
  | synErr m => simp [POut.bind]
  | crash => simp [POut.bind]
  | timeout => simp [POut.bind]

/-- Inversion of a successful `match`: the cursor token had the expected
kind and only the cursor advanced. -/
theorem pmatch_ok_inv (e : String) (s : PState) (t : Token) (s2 : PState)
    (h : pmatch e s = POut.ok t s2) :
    s.toks.get? s.cur = some t ∧ t.1 = e ∧
      s2.toks = s.toks ∧ s2.cur = s.cur + 1 ∧ s2.symtab = s.symtab := by
  unfold pmatch at h
  cases hg : s.toks.get? s.cur with
  | none => rw [hg] at h; cases h
  | some t2 =>
      rw [hg] at h
      dsimp only at h
      by_cases hk : t2.1 = e
      · rw [if_pos hk] at h
        cases h
        exact ⟨rfl, hk, rfl, rfl, rfl⟩
      · rw [if_neg hk] at h
        cases h

/-- The spec-side `match` succeeds on a token of the expected kind,
advancing only the cursor and keeping the recorded list. -/
theorem lmatch_ok_intro (e : String) (T : List Token) (c : Nat) (l : List TokVal) (t : Token)
    (hg : T.get? c = some t) (hk : t.1 = e) :
    lmatch e ⟨T, c, l⟩ = LOut.ok t ⟨T, c + 1, l⟩ := by
  rw [List.get?_eq_getElem?] at hg
  simp [lmatch, hg, hk]

/-- Key set of a dict after `d[k] = e`. -/
theorem keys_stSet (st : SymTab) (k : TokVal) (e : Entry) (v : TokVal) :
    v ∈ (stSet st k e).map Prod.fst ↔ v ∈ st.map Prod.fst ∨ v = k := by
  induction st with
  | nil => simp [stSet]
  | cons p rest ih =>
      obtain ⟨k0, e0⟩ := p
      by_cases hk : k0 = k
      · subst hk
        simp [stSet]
        tauto
      · simp [stSet, hk, ih]
        tauto

/-- Updating the value of an existing entry keeps the key list. -/
theorem keys_stUpdateValue (st : SymTab) (k : TokVal) (val : ExprVal) :
    (stUpdateValue st k val).map Prod.fst = st.map Prod.fst := by
  induction st with
  | nil => simp [stUpdateValue]
  | cons p rest ih =>
      obtain ⟨k0, e0⟩ := p
      by_cases hk : k0 = k
      · simp [stUpdateValue, hk]
      · simp [stUpdateValue, hk, ih]

/-- Lookup succeeds exactly on a key of the dict. -/
theorem stLookup_isSome (st : SymTab) (k : TokVal) :
    (stLookup st k).isSome = true ↔ k ∈ st.map Prod.fst := by
  induction st with
  | nil => simp [stLookup]
  | cons p rest ih =>
      obtain ⟨k0, e0⟩ := p
      by_cases hk : k0 = k
      · subst hk
        simp [stLookup]
      · simp [stLookup, hk, ih]
        tauto

/-- Composition of two key-set extension steps. -/
theorem keys_compose {A B C : SymTab} {d1 d2 : List TokVal}
    (h1 : ∀ v, v ∈ B.map Prod.fst ↔ v ∈ A.map Prod.fst ∨ v ∈ d1)
    (h2 : ∀ v, v ∈ C.map Prod.fst ↔ v ∈ B.map Prod.fst ∨ v ∈ d2) :
    ∀ v, v ∈ C.map Prod.fst ↔ v ∈ A.map Prod.fst ∨ v ∈ d1 ++ d2 := by
  intro v
  rw [h2, h1]
  simp [List.mem_append, or_assoc]

/-- An unchanged symbol table is a key-set extension by the empty batch. -/
theorem keys_refl (A : SymTab) :
    ∀ v, v ∈ A.map Prod.fst ↔ v ∈ A.map Prod.fst ∨ v ∈ ([] : List TokVal) := by
  simp

/-- Simulation between every source-side parsing function and its
spec-side walk, simultaneously for the whole mutual family, by induction
on fuel: a normal return of the parser is mirrored by the walk over the
same tokens with the same cursor motion, and the walk's recorded batch of
left-hand sides is exactly the set of keys the parser added. -/
theorem simAll : ∀ f : Nat,
    SimAt f parseStatement lhsStatement ∧
    SimAt f parseDeclaration lhsDeclaration ∧
    SimAt f parseAssignment lhsAssignment ∧
    SimAt f parseConditional lhsConditional ∧
    SimAt f parseFixedLoop lhsFixedLoop ∧
    SimAt f parseWhileLoop lhsWhileLoop ∧
    SimAt f parseInput lhsInput ∧
    SimAt f parseOutput lhsOutput ∧
    SimAt f parseCompound lhsCompound ∧
    SimAt f compoundLoop lhsCompoundLoop ∧
    SimAt f parseProgram lhsProgram ∧
    SimAt f programLoop lhsProgramLoop ∧
    SimAt f parseExpression lhsExpression := by
  intro f
  induction f with
  | zero =>
      refine ⟨?_, ?_, ?_, ?_, ?_, ?_, ?_, ?_, ?_, ?_, ?_, ?_, ?_⟩ <;>
        · intro s a sOut h
          simp [parseStatement, parseDeclaration, parseAssignment, parseConditional,
            parseFixedLoop, parseWhileLoop, parseInput, parseOutput, parseCompound,
            compoundLoop, parseProgram, programLoop, parseExpression] at h
  | succ f ih =>
      obtain ⟨ihStmt, ihDecl, ihAssign, ihCond, ihFixed, ihWhile, ihInput, ihOutput,
        ihComp, ihCompLoop, ihProg, ihProgLoop, ihExpr⟩ := ih
      refine ⟨?_, ?_, ?_, ?_, ?_, ?_, ?_, ?_, ?_, ?_, ?_, ?_, ?_⟩
      -- parseStatement
      · intro s a sOut h
        simp only [parseStatement] at h
        cases hg : s.toks.get? s.cur with
        | none => rw [hg] at h; cases h
        | some cur =>
        rw [hg] at h
        dsimp only at h
        by_cases hid : cur.1 = "IDENTIFIER"
        · rw [if_pos hid] at h
          cases hg2 : s.toks.get? (s.cur + 1) with
          | none => rw [hg2] at h; cases h
          | some nxt =>
          rw [hg2] at h
          dsimp only at h
          by_cases hassign : nxt.1 = "ASSIGN"
          · rw [if_pos hassign] at h
            obtain ⟨hT, dl, hspec, hkeys⟩ := ihAssign _ _ _ h
            refine ⟨hT, dl, ?_, hkeys⟩
            intro l
            simp only [lhsStatement]
            rw [hg]
            dsimp only
            rw [if_pos hid, hg2]
            dsimp only
            rw [if_pos hassign]
            exact hspec l
          · rw [if_neg hassign] at h
            cases h
        · rw [if_neg hid] at h
          by_cases hkw : cur.1 = "KEYWORD"
          · rw [if_pos hkw] at h
            by_cases hif : cur.2 = TokVal.vStr "if"
            · rw [if_pos hif] at h
              obtain ⟨hT, dl, hspec, hkeys⟩ := ihCond _ _ _ h
              refine ⟨hT, dl, ?_, hkeys⟩
              intro l
              simp only [lhsStatement]
              rw [hg]
              dsimp only
              rw [if_neg hid, if_pos hkw, if_pos hif]
              exact hspec l
            · rw [if_neg hif] at h
              by_cases hfor : cur.2 = TokVal.vStr "for"
              · rw [if_pos hfor] at h
                obtain ⟨hT, dl, hspec, hkeys⟩ := ihFixed _ _ _ h
                refine ⟨hT, dl, ?_, hkeys⟩
                intro l
                simp only [lhsStatement]
                rw [hg]
                dsimp only
                rw [if_neg hid, if_pos hkw, if_neg hif, if_pos hfor]
                exact hspec l
              · rw [if_neg hfor] at h
                by_cases hdo : cur.2 = TokVal.vStr "do"
                · rw [if_pos hdo] at h
                  obtain ⟨hT, dl, hspec, hkeys⟩ := ihWhile _ _ _ h
                  refine ⟨hT, dl, ?_, hkeys⟩
                  intro l
                  simp only [lhsStatement]
                  rw [hg]
                  dsimp only
                  rw [if_neg hid, if_pos hkw, if_neg hif, if_neg hfor, if_pos hdo]
                  exact hspec l
                · rw [if_neg hdo] at h
                  by_cases hin : cur.2 = TokVal.vStr "input"
                  · rw [if_pos hin] at h
                    obtain ⟨hT, dl, hspec, hkeys⟩ := ihInput _ _ _ h
                    refine ⟨hT, dl, ?_, hkeys⟩
                    intro l
                    simp only [lhsStatement]
                    rw [hg]
                    dsimp only
                    rw [if_neg hid, if_pos hkw, if_neg hif, if_neg hfor, if_neg hdo,
                      if_pos hin]
                    exact hspec l
                  · rw [if_neg hin] at h
                    by_cases hout : cur.2 = TokVal.vStr "output"
                    · rw [if_pos hout] at h
                      obtain ⟨hT, dl, hspec, hkeys⟩ := ihOutput _ _ _ h
                      refine ⟨hT, dl, ?_, hkeys⟩
                      intro l
                      simp only [lhsStatement]
                      rw [hg]
                      dsimp only
                      rw [if_neg hid, if_pos hkw, if_neg hif, if_neg hfor, if_neg hdo,
                        if_neg hin, if_pos hout]
                      exact hspec l
                    · rw [if_neg hout] at h
                      cases h
                      refine ⟨rfl, [], ?_, keys_refl _⟩
                      intro l
                      simp only [lhsStatement]
                      rw [hg]
                      dsimp only
                      rw [if_neg hid, if_pos hkw, if_neg hif, if_neg hfor, if_neg hdo,
                        if_neg hin, if_neg hout]
                      simp
          · rw [if_neg hkw] at h
            by_cases hbr : (cur.1 = "DELIMITER" && cur.2 = TokVal.vStr "\x7b") = true
            · rw [if_pos hbr] at h
              obtain ⟨hT, dl, hspec, hkeys⟩ := ihComp _ _ _ h
              refine ⟨hT, dl, ?_, hkeys⟩
              intro l
              simp only [lhsStatement]
              rw [hg]
              dsimp only
              rw [if_neg hid, if_neg hkw, if_pos hbr]
              exact hspec l
            · rw [if_neg hbr] at h
              cases h
      -- parseDeclaration
      · intro s a sOut h
        simp only [parseDeclaration, POut.bind_eq_ok] at h
        obtain ⟨t1, s1, hm1, ident, s2, hm2, t3, s3, hm3, v, s4, hex, t5, s5, hm5, h⟩ := h
        cases h
        obtain ⟨hg1, hk1, ht1, hc1, hs1⟩ := pmatch_ok_inv _ _ _ _ hm1
        obtain ⟨hg2, hk2, ht2, hc2, hs2⟩ := pmatch_ok_inv _ _ _ _ hm2
        obtain ⟨hg3, hk3, ht3, hc3, hs3⟩ := pmatch_ok_inv _ _ _ _ hm3
        obtain ⟨hT4, dl, hspec4, hkeys4⟩ := ihExpr _ _ _ hex
        obtain ⟨hg5, hk5, ht5, hc5, hs5⟩ := pmatch_ok_inv _ _ _ _ hm5
        rw [ht1, hc1] at hg2
        rw [ht2, ht1, hc2, hc1] at hg3
        rw [ht3, ht2, ht1, hc3, hc2, hc1] at hspec4
        rw [hT4, ht3, ht2, ht1] at hg5
        refine ⟨?_, dl ++ [ident.2], ?_, ?_⟩
        · show s5.toks = s.toks
          rw [ht5, hT4, ht3, ht2, ht1]
        · intro l
          simp only [lhsDeclaration]
          rw [lmatch_ok_intro _ _ _ _ _ hg1 hk1]
          simp only [LOut.bind]
          rw [lmatch_ok_intro _ _ _ _ _ hg2 hk2]
          simp only [LOut.bind]
          rw [lmatch_ok_intro _ _ _ _ _ hg3 hk3]
          simp only [LOut.bind]
          rw [hspec4 l]
          simp only [LOut.bind]
          rw [lmatch_ok_intro _ _ _ _ _ hg5 hk5]
          simp only [LOut.bind]
          simp [hc5]
        · intro w
          show w ∈ (stSet s5.symtab ident.2 _).map Prod.fst ↔ _
          rw [keys_stSet, hs5]
          rw [hkeys4 w]
          rw [hs3, hs2, hs1]
          simp [List.mem_append, or_assoc]
      -- parseAssignment
      · intro s a sOut h
        simp only [parseAssignment, POut.bind_eq_ok] at h
        obtain ⟨ident, s1, hm1, t2, s2, hm2, v, s3, hex, t4, s4, hm4, h⟩ := h
        cases h
        obtain ⟨hg1, hk1, ht1, hc1, hs1⟩ := pmatch_ok_inv _ _ _ _ hm1
        obtain ⟨hg2, hk2, ht2, hc2, hs2⟩ := pmatch_ok_inv _ _ _ _ hm2
        obtain ⟨hT3, dl, hspec3, hkeys3⟩ := ihExpr _ _ _ hex
        obtain ⟨hg4, hk4, ht4, hc4, hs4⟩ := pmatch_ok_inv _ _ _ _ hm4
        rw [ht1, hc1] at hg2
        rw [ht2, ht1, hc2, hc1] at hspec3
        rw [hT3, ht2, ht1] at hg4
        have hkeysTo4 : ∀ w, w ∈ s4.symtab.map Prod.fst ↔
            w ∈ s.symtab.map Prod.fst ∨ w ∈ dl := by
          intro w
          rw [hs4, hkeys3 w, hs2, hs1]
        refine ⟨?_, dl ++ [ident.2], ?_, ?_⟩
        · show s4.toks = s.toks
          rw [ht4, hT3, ht2, ht1]
        · intro l
          simp only [lhsAssignment]
          rw [lmatch_ok_intro _ _ _ _ _ hg1 hk1]
          simp only [LOut.bind]
          rw [lmatch_ok_intro _ _ _ _ _ hg2 hk2]
          simp only [LOut.bind]
          rw [hspec3 l]
          simp only [LOut.bind]
          rw [lmatch_ok_intro _ _ _ _ _ hg4 hk4]
          simp only [LOut.bind]
          simp [hc4]
        · intro w
          by_cases hlook : (stLookup s4.symtab ident.2).isSome = true
          · have hmem := (stLookup_isSome _ _).mp hlook
            show w ∈ (if (stLookup s4.symtab ident.2).isSome = true then
                stUpdateValue s4.symtab ident.2 v
              else stSet s4.symtab ident.2
                { ty := "variable", value := some v, declared := false }).map Prod.fst ↔ _
            rw [if_pos hlook, keys_stUpdateValue, hkeysTo4 w]
            simp only [List.mem_append, List.mem_singleton]
            constructor
            · rintro (h1 | h1)
              · exact Or.inl h1
              · exact Or.inr (Or.inl h1)
            · rintro (h1 | h1 | rfl)
              · exact Or.inl h1
              · exact Or.inr h1
              · exact (hkeysTo4 ident.2).mp hmem
          · show w ∈ (if (stLookup s4.symtab ident.2).isSome = true then
                stUpdateValue s4.symtab ident.2 v
              else stSet s4.symtab ident.2
                { ty := "variable", value := some v, declared := false }).map Prod.fst ↔ _
            rw [if_neg hlook, keys_stSet, hkeysTo4 w]
            simp [List.mem_append, or_assoc]
      -- parseConditional
      · intro s a sOut h
        simp only [parseConditional, POut.bind_eq_ok] at h
        obtain ⟨t1, s1, hm1, v2, s2, hex2, t3, s3, hm3, u4, s4, hcomp4, h⟩ := h
        obtain ⟨hg1, hk1, ht1, hc1, hs1⟩ := pmatch_ok_inv _ _ _ _ hm1
        obtain ⟨hT2, dl2, hspec2, hkeys2⟩ := ihExpr _ _ _ hex2
        obtain ⟨hg3, hk3, ht3, hc3, hs3⟩ := pmatch_ok_inv _ _ _ _ hm3
        obtain ⟨hT4, dl4, hspec4, hkeys4⟩ := ihComp _ _ _ hcomp4
        rw [hc1, ht1] at hspec2
        rw [hT2, ht1] at hg3
        rw [ht3, hT2, ht1, hc3] at hspec4
        have hkeysTo4 : ∀ w, w ∈ s4.symtab.map Prod.fst ↔
            w ∈ s.symtab.map Prod.fst ∨ w ∈ dl2 ++ dl4 := by
          have c1 : ∀ w, w ∈ s2.symtab.map Prod.fst ↔
              w ∈ s.symtab.map Prod.fst ∨ w ∈ dl2 := by
            intro w
            rw [hkeys2 w, hs1]
          have c2 : ∀ w, w ∈ s4.symtab.map Prod.fst ↔
              w ∈ s2.symtab.map Prod.fst ∨ w ∈ dl4 := by
            intro w
            rw [hkeys4 w, hs3]
          exact keys_compose c1 c2
        have hT4s : s4.toks = s.toks := by
          rw [hT4, ht3, hT2, ht1]
        cases hg4 : s4.toks.get? s4.cur with
        | none =>
            rw [hg4] at h
            dsimp only at h
            cases h
            rw [hT4s] at hg4
            refine ⟨hT4s, dl2 ++ dl4, ?_, hkeysTo4⟩
            intro l
            simp only [lhsConditional]
            rw [lmatch_ok_intro _ _ _ _ _ hg1 hk1]
            simp only [LOut.bind]
            rw [hspec2 l]
            simp only [LOut.bind]
            rw [lmatch_ok_intro _ _ _ _ _ hg3 hk3]
            simp only [LOut.bind]
            rw [hspec4 (l ++ dl2)]
            simp only [LOut.bind]
            rw [hg4]
            simp
        | some t =>
        rw [hg4] at h
        dsimp only at h
        by_cases helse : t.2 = TokVal.vStr "else"
        · rw [if_pos helse] at h
          simp only [POut.bind_eq_ok] at h
          obtain ⟨t5, s5, hm5, h⟩ := h
          obtain ⟨hg5, hk5, ht5, hc5, hs5⟩ := pmatch_ok_inv _ _ _ _ hm5
          obtain ⟨hT6, dl6, hspec6, hkeys6⟩ := ihComp _ _ _ h
          rw [hT4s] at hg4
          rw [hT4s] at hg5
          rw [ht5, hT4s, hc5] at hspec6
          refine ⟨?_, (dl2 ++ dl4) ++ dl6, ?_, ?_⟩
          · rw [hT6, ht5, hT4s]
          · intro l
            simp only [lhsConditional]
            rw [lmatch_ok_intro _ _ _ _ _ hg1 hk1]
            simp only [LOut.bind]
            rw [hspec2 l]
            simp only [LOut.bind]
            rw [lmatch_ok_intro _ _ _ _ _ hg3 hk3]
            simp only [LOut.bind]
            rw [hspec4 (l ++ dl2)]
            simp only [LOut.bind]
            rw [hg4]
            dsimp only
            rw [if_pos helse]
            rw [lmatch_ok_intro _ _ _ _ _ hg5 hk5]
            simp only [LOut.bind]
            rw [hspec6 ((l ++ dl2) ++ dl4)]
            simp [List.append_assoc]
          · have c3 : ∀ w, w ∈ s5.symtab.map Prod.fst ↔
                w ∈ s.symtab.map Prod.fst ∨ w ∈ dl2 ++ dl4 := by
              intro w
              rw [hs5, hkeysTo4 w]
            have c4 : ∀ w, w ∈ sOut.symtab.map Prod.fst ↔
                w ∈ s5.symtab.map Prod.fst ∨ w ∈ dl6 := hkeys6
            exact keys_compose c3 c4
        · rw [if_neg helse] at h
          cases h
          rw [hT4s] at hg4
          refine ⟨hT4s, dl2 ++ dl4, ?_, hkeysTo4⟩
          intro l
          simp only [lhsConditional]
          rw [lmatch_ok_intro _ _ _ _ _ hg1 hk1]
          simp only [LOut.bind]
          rw [hspec2 l]
          simp only [LOut.bind]
          rw [lmatch_ok_intro _ _ _ _ _ hg3 hk3]
          simp only [LOut.bind]
          rw [hspec4 (l ++ dl2)]
          simp only [LOut.bind]
          rw [hg4]
          dsimp only
          rw [if_neg helse]
          simp
      -- parseFixedLoop
      · intro s a sOut h
        simp only [parseFixedLoop, POut.bind_eq_ok] at h
        obtain ⟨t1, s1, hm1, t2, s2, hm2, t3, s3, hm3, v4, s4, hex4, t5, s5, hm5,
          v6, s6, hex6, h⟩ := h
        obtain ⟨hg1, hk1, ht1, hc1, hs1⟩ := pmatch_ok_inv _ _ _ _ hm1
        obtain ⟨hg2, hk2, ht2, hc2, hs2⟩ := pmatch_ok_inv _ _ _ _ hm2
        obtain ⟨hg3, hk3, ht3, hc3, hs3⟩ := pmatch_ok_inv _ _ _ _ hm3
        obtain ⟨hT4, dl4, hspec4, hkeys4⟩ := ihExpr _ _ _ hex4
        obtain ⟨hg5, hk5, ht5, hc5, hs5⟩ := pmatch_ok_inv _ _ _ _ hm5
        obtain ⟨hT6, dl6, hspec6, hkeys6⟩ := ihExpr _ _ _ hex6
        obtain ⟨hT7, dl7, hspec7, hkeys7⟩ := ihComp _ _ _ h
        rw [ht1, hc1] at hg2
        rw [ht2, ht1, hc2, hc1] at hg3
        rw [ht3, ht2, ht1, hc3, hc2, hc1] at hspec4
        rw [hT4, ht3, ht2, ht1] at hg5
        rw [ht5, hT4, ht3, ht2, ht1, hc5] at hspec6
        rw [hT6, ht5, hT4, ht3, ht2, ht1] at hspec7
        refine ⟨?_, (dl4 ++ dl6) ++ dl7, ?_, ?_⟩
        · rw [hT7, hT6, ht5, hT4, ht3, ht2, ht1]
        · intro l
          simp only [lhsFixedLoop]
          rw [lmatch_ok_intro _ _ _ _ _ hg1 hk1]
          simp only [LOut.bind]
          rw [lmatch_ok_intro _ _ _ _ _ hg2 hk2]
          simp only [LOut.bind]
          rw [lmatch_ok_intro _ _ _ _ _ hg3 hk3]
          simp only [LOut.bind]
          rw [hspec4 l]
          simp only [LOut.bind]
          rw [lmatch_ok_intro _ _ _ _ _ hg5 hk5]
          simp only [LOut.bind]
          rw [hspec6 (l ++ dl4)]
          simp only [LOut.bind]
          rw [hspec7 ((l ++ dl4) ++ dl6)]
          simp [List.append_assoc]
        · have c1 : ∀ w, w ∈ s4.symtab.map Prod.fst ↔
              w ∈ s.symtab.map Prod.fst ∨ w ∈ dl4 := by
            intro w
            rw [hkeys4 w, hs3, hs2, hs1]
          have c2 : ∀ w, w ∈ s6.symtab.map Prod.fst ↔
              w ∈ s4.symtab.map Prod.fst ∨ w ∈ dl6 := by
            intro w
            rw [hkeys6 w, hs5]
          exact keys_compose (keys_compose c1 c2) hkeys7
      -- parseWhileLoop
      · intro s a sOut h
        simp only [parseWhileLoop, POut.bind_eq_ok] at h
        obtain ⟨t1, s1, hm1, u2, s2, hcomp2, t3, s3, hm3, v4, s4, hex4, h⟩ := h
        cases h
        obtain ⟨hg1, hk1, ht1, hc1, hs1⟩ := pmatch_ok_inv _ _ _ _ hm1
        obtain ⟨hT2, dl2, hspec2, hkeys2⟩ := ihComp _ _ _ hcomp2
        obtain ⟨hg3, hk3, ht3, hc3, hs3⟩ := pmatch_ok_inv _ _ _ _ hm3
        obtain ⟨hT4, dl4, hspec4, hkeys4⟩ := ihExpr _ _ _ hex4
        rw [ht1, hc1] at hspec2
        rw [hT2, ht1] at hg3
        rw [ht3, hT2, ht1, hc3] at hspec4
        refine ⟨?_, dl2 ++ dl4, ?_, ?_⟩
        · rw [hT4, ht3, hT2, ht1]
        · intro l
          simp only [lhsWhileLoop]
          rw [lmatch_ok_intro _ _ _ _ _ hg1 hk1]
          simp only [LOut.bind]
          rw [hspec2 l]
          simp only [LOut.bind]
          rw [lmatch_ok_intro _ _ _ _ _ hg3 hk3]
          simp only [LOut.bind]
          rw [hspec4 (l ++ dl2)]
          simp [List.append_assoc]
        · have c1 : ∀ w, w ∈ s2.symtab.map Prod.fst ↔
              w ∈ s.symtab.map Prod.fst ∨ w ∈ dl2 := by
            intro w
            rw [hkeys2 w, hs1]
          have c2 : ∀ w, w ∈ sOut.symtab.map Prod.fst ↔
              w ∈ s2.symtab.map Prod.fst ∨ w ∈ dl4 := by
            intro w
            rw [hkeys4 w, hs3]
          exact keys_compose c1 c2
      -- parseInput
      · intro s a sOut h
        simp only [parseInput, POut.bind_eq_ok] at h
        obtain ⟨t1, s1, hm1, t2, s2, hm2, t3, s3, hm3, h⟩ := h
        cases h
        obtain ⟨hg1, hk1, ht1, hc1, hs1⟩ := pmatch_ok_inv _ _ _ _ hm1
        obtain ⟨hg2, hk2, ht2, hc2, hs2⟩ := pmatch_ok_inv _ _ _ _ hm2
        obtain ⟨hg3, hk3, ht3, hc3, hs3⟩ := pmatch_ok_inv _ _ _ _ hm3
        rw [ht1, hc1] at hg2
        rw [ht2, ht1, hc2, hc1] at hg3
        refine ⟨?_, [], ?_, ?_⟩
        · rw [ht3, ht2, ht1]
        · intro l
          simp only [lhsInput]
          rw [lmatch_ok_intro _ _ _ _ _ hg1 hk1]
          simp only [LOut.bind]
          rw [lmatch_ok_intro _ _ _ _ _ hg2 hk2]
          simp only [LOut.bind]
          rw [lmatch_ok_intro _ _ _ _ _ hg3 hk3]
          simp only [LOut.bind]
          rw [hc3, hc2, hc1]
          simp
        · intro w
          rw [hs3, hs2, hs1]
          simp
      -- parseOutput
      · intro s a sOut h
        simp only [parseOutput, POut.bind_eq_ok] at h
        obtain ⟨t1, s1, hm1, v2, s2, hex2, t3, s3, hm3, h⟩ := h
        cases h
        obtain ⟨hg1, hk1, ht1, hc1, hs1⟩ := pmatch_ok_inv _ _ _ _ hm1
        obtain ⟨hT2, dl2, hspec2, hkeys2⟩ := ihExpr _ _ _ hex2
        obtain ⟨hg3, hk3, ht3, hc3, hs3⟩ := pmatch_ok_inv _ _ _ _ hm3
        rw [ht1, hc1] at hspec2
        rw [hT2, ht1] at hg3
        refine ⟨?_, dl2, ?_, ?_⟩
        · rw [ht3, hT2, ht1]
        · intro l
          simp only [lhsOutput]
          rw [lmatch_ok_intro _ _ _ _ _ hg1 hk1]
          simp only [LOut.bind]
          rw [hspec2 l]
          simp only [LOut.bind]
          rw [lmatch_ok_intro _ _ _ _ _ hg3 hk3]
          simp only [LOut.bind]
          rw [hc3]
        · intro w
          rw [hs3, hkeys2 w, hs1]
      -- parseCompound
      · intro s a sOut h
        simp only [parseCompound, POut.bind_eq_ok] at h
        obtain ⟨t1, s1, hm1, h⟩ := h
        obtain ⟨hg1, hk1, ht1, hc1, hs1⟩ := pmatch_ok_inv _ _ _ _ hm1
        obtain ⟨hT2, dl2, hspec2, hkeys2⟩ := ihCompLoop _ _ _ h
        rw [ht1, hc1] at hspec2
        refine ⟨?_, dl2, ?_, ?_⟩
        · rw [hT2, ht1]
        · intro l
          simp only [lhsCompound]
          rw [lmatch_ok_intro _ _ _ _ _ hg1 hk1]
          simp only [LOut.bind]
          exact hspec2 l
        · intro w
          rw [hkeys2 w, hs1]
      -- compoundLoop
      · intro s a sOut h
        simp only [compoundLoop] at h
        cases hg : s.toks.get? s.cur with
        | none =>
            rw [hg] at h
            dsimp only at h
            simp only [POut.bind_eq_ok] at h
            obtain ⟨t1, s1, hm1, h⟩ := h
            obtain ⟨hg1, _, _, _, _⟩ := pmatch_ok_inv _ _ _ _ hm1
            rw [hg] at hg1
            cases hg1
        | some t =>
        rw [hg] at h
        dsimp only at h
        by_cases hbr : t.2 = TokVal.vStr "\x7d"
        · rw [if_neg (by simp [hbr])] at h
          simp only [POut.bind_eq_ok] at h
          obtain ⟨t1, s1, hm1, h⟩ := h
          cases h
          obtain ⟨hg1, hk1, ht1, hc1, hs1⟩ := pmatch_ok_inv _ _ _ _ hm1
          refine ⟨ht1, [], ?_, ?_⟩
          · intro l
            simp only [lhsCompoundLoop]
            rw [hg]
            dsimp only
            rw [if_neg (by simp [hbr])]
            rw [lmatch_ok_intro _ _ _ _ _ hg1 hk1]
            simp only [LOut.bind]
            rw [hc1]
            simp
          · intro w
            rw [hs1]
            simp
        · rw [if_pos (by simp [hbr])] at h
          simp only [POut.bind_eq_ok] at h
          obtain ⟨u1, s1, hstmt, h⟩ := h
          obtain ⟨hT1, dl1, hspec1, hkeys1⟩ := ihStmt _ _ _ hstmt
          obtain ⟨hT2, dl2, hspec2, hkeys2⟩ := ihCompLoop _ _ _ h
          rw [hT1] at hspec2
          refine ⟨?_, dl1 ++ dl2, ?_, keys_compose hkeys1 hkeys2⟩
          · rw [hT2, hT1]
          · intro l
            simp only [lhsCompoundLoop]
            rw [hg]
            dsimp only
            rw [if_pos (by simp [hbr])]
            rw [hspec1 l]
            simp only [LOut.bind]
            rw [hspec2 (l ++ dl1)]
            simp [List.append_assoc]
      -- parseProgram
      · intro s a sOut h
        simp only [parseProgram, POut.bind_eq_ok] at h
        obtain ⟨t1, s1, hm1, h⟩ := h
        obtain ⟨hg1, hk1, ht1, hc1, hs1⟩ := pmatch_ok_inv _ _ _ _ hm1
        obtain ⟨hT2, dl2, hspec2, hkeys2⟩ := ihProgLoop _ _ _ h
        rw [ht1, hc1] at hspec2
        refine ⟨?_, dl2, ?_, ?_⟩
        · rw [hT2, ht1]
        · intro l
          simp only [lhsProgram]
          rw [lmatch_ok_intro _ _ _ _ _ hg1 hk1]
          simp only [LOut.bind]
          exact hspec2 l
        · intro w
          rw [hkeys2 w, hs1]
      -- programLoop
      · intro s a sOut h
        simp only [programLoop] at h
        cases hg : s.toks.get? s.cur with
        | none =>
            rw [hg] at h
            dsimp only at h
            simp only [POut.bind_eq_ok] at h
            obtain ⟨t1, s1, hm1, h⟩ := h
            obtain ⟨hg1, _, _, _, _⟩ := pmatch_ok_inv _ _ _ _ hm1
            rw [hg] at hg1
            cases hg1
        | some t =>
        rw [hg] at h
        dsimp only at h
        by_cases hbr : t.2 = TokVal.vStr "\x7d"
        · rw [if_neg (by simp [hbr])] at h
          simp only [POut.bind_eq_ok] at h
          obtain ⟨t1, s1, hm1, h⟩ := h
          cases h
          obtain ⟨hg1, hk1, ht1, hc1, hs1⟩ := pmatch_ok_inv _ _ _ _ hm1
          refine ⟨ht1, [], ?_, ?_⟩
          · intro l
            simp only [lhsProgramLoop]
            rw [hg]
            dsimp only
            rw [if_neg (by simp [hbr])]
            rw [lmatch_ok_intro _ _ _ _ _ hg1 hk1]
            simp only [LOut.bind]
            rw [hc1]
            simp
          · intro w
            rw [hs1]
            simp
        · rw [if_pos (by simp [hbr])] at h
          simp only [POut.bind_eq_ok] at h
          obtain ⟨u1, s1, hfirst, h⟩ := h
          by_cases hlet : (t.1 = "KEYWORD" && t.2 = TokVal.vStr "let") = true
          · rw [if_pos hlet] at hfirst
            obtain ⟨hT1, dl1, hspec1, hkeys1⟩ := ihDecl _ _ _ hfirst
            obtain ⟨hT2, dl2, hspec2, hkeys2⟩ := ihProgLoop _ _ _ h
            rw [hT1] at hspec2
            refine ⟨?_, dl1 ++ dl2, ?_, keys_compose hkeys1 hkeys2⟩
            · rw [hT2, hT1]
            · intro l
              simp only [lhsProgramLoop]
              rw [hg]
              dsimp only
              rw [if_pos (by simp [hbr]), if_pos hlet]
              rw [hspec1 l]
              simp only [LOut.bind]
              rw [hspec2 (l ++ dl1)]
              simp [List.append_assoc]
          · rw [if_neg hlet] at hfirst
            obtain ⟨hT1, dl1, hspec1, hkeys1⟩ := ihStmt _ _ _ hfirst
            obtain ⟨hT2, dl2, hspec2, hkeys2⟩ := ihProgLoop _ _ _ h
            rw [hT1] at hspec2
            refine ⟨?_, dl1 ++ dl2, ?_, keys_compose hkeys1 hkeys2⟩
            · rw [hT2, hT1]
            · intro l
              simp only [lhsProgramLoop]
              rw [hg]
              dsimp only
              rw [if_pos (by simp [hbr]), if_neg hlet]
              rw [hspec1 l]
              simp only [LOut.bind]
              rw [hspec2 (l ++ dl1)]
              simp [List.append_assoc]
      -- parseExpression
      · intro s a sOut h
        simp only [parseExpression] at h
        cases hg : s.toks.get? s.cur with
        | none => rw [hg] at h; cases h
        | some token =>
        rw [hg] at h
        dsimp only at h
        by_cases htk : (token.1 = "IDENTIFIER" || token.1 = "NUMBER") = true
        · rw [if_pos htk] at h
          simp only [POut.bind_eq_ok] at h
          obtain ⟨left, s1, hm1, h⟩ := h
          obtain ⟨hg1, hk1, ht1, hc1, hs1⟩ := pmatch_ok_inv _ _ _ _ hm1
          cases hg2 : s1.toks.get? s1.cur with
          | none =>
              rw [hg2] at h
              dsimp only at h
              cases h
              rw [ht1, hc1] at hg2
              refine ⟨ht1, [], ?_, ?_⟩
              · intro l
                simp only [lhsExpression]
                rw [hg]
                dsimp only
                rw [if_pos htk]
                rw [lmatch_ok_intro _ _ _ _ _ hg1 hk1]
                simp only [LOut.bind]
                rw [hg2]
                dsimp only
                rw [hc1]
                simp
              · intro w
                rw [hs1]
                simp
          | some t2 =>
          rw [hg2] at h
          dsimp only at h
          rw [ht1, hc1] at hg2
          by_cases hrel : t2.1 = "REL_OP"
          · rw [if_pos hrel] at h
            simp only [POut.bind_eq_ok] at h
            obtain ⟨op, s2, hm2, right, s3, hex3, h⟩ := h
            cases h
            obtain ⟨hg2b, hk2, ht2, hc2, hs2⟩ := pmatch_ok_inv _ _ _ _ hm2
            obtain ⟨hT3, dl3, hspec3, hkeys3⟩ := ihExpr _ _ _ hex3
            rw [ht2, ht1, hc2, hc1] at hspec3
            refine ⟨?_, dl3, ?_, ?_⟩
            · rw [hT3, ht2, ht1]
            · intro l
              simp only [lhsExpression]
              rw [hg]
              dsimp only
              rw [if_pos htk]
              rw [lmatch_ok_intro _ _ _ _ _ hg1 hk1]
              simp only [LOut.bind]
              rw [hg2]
              dsimp only
              rw [if_pos hrel]
              rw [lmatch_ok_intro _ _ _ _ _ hg2 hrel]
              simp only [LOut.bind]
              rw [hspec3 l]
            · intro w
              rw [hkeys3 w, hs2, hs1]
          · rw [if_neg hrel] at h
            cases h
            refine ⟨ht1, [], ?_, ?_⟩
            · intro l
              simp only [lhsExpression]
              rw [hg]
              dsimp only
              rw [if_pos htk]
              rw [lmatch_ok_intro _ _ _ _ _ hg1 hk1]
              simp only [LOut.bind]
              rw [hg2]
              dsimp only
              rw [if_neg hrel]
              rw [hc1]
              simp
            · intro w
              rw [hs1]
              simp
        · rw [if_neg htk] at h
          cases h

/-- Claim C9. After every successful parse, the key set of the symbol
table is exactly the set of identifiers recorded by the spec-side grammar
walk as left-hand sides of declarations and assignments over the same
token stream — the walk records nothing for identifiers that appear only
inside expressions, in input statements or in for-loop headers, so those
are never keys. -/
theorem c9_symbol_table_keys (fuel : Nat) (toks : List Token) (tab : SymTab)
    (h : runParse fuel toks = ParseOutcome.success tab) :
    ∃ (c : Nat) (lhs : List TokVal),
      lhsProgram fuel ⟨toks, 0, []⟩ = LOut.ok () ⟨toks, c, lhs⟩ ∧
      ∀ v, v ∈ tab.map Prod.fst ↔ v ∈ lhs := by
  unfold runParse at h
  cases hp : parseProgram fuel ⟨toks, 0, []⟩ with
  | ok u sOut =>
      rw [hp] at h
      cases h
      obtain ⟨hT, dl, hspec, hkeys⟩ :=
        ((simAll fuel).2.2.2.2.2.2.2.2.2.2.1 : SimAt fuel parseProgram lhsProgram) _ _ _ hp
      refine ⟨sOut.cur, dl, ?_, ?_⟩
      · exact hspec []
      · intro v
        rw [hkeys v]
        simp
  | synErr m => rw [hp] at h; cases h
  | crash => rw [hp] at h; cases h
  | timeout => rw [hp] at h; cases h

set_option maxHeartbeats 1000000 in
/-- Witness for C9: a successful parse with a declaration, an assignment
and an input statement; the keys are exactly the recorded left-hand sides
(the input identifier is not a key). -/
theorem c9_symbol_table_keys_witness :
    ∃ tab : SymTab,
      runParse 50 (tokenize "\x7b let a = 1 ; b = 2 ; input c ; \x7d").1 =
        ParseOutcome.success tab ∧
      ∃ (c : Nat) (lhs : List TokVal),
        lhsProgram 50 ⟨(tokenize "\x7b let a = 1 ; b = 2 ; input c ; \x7d").1, 0, []⟩ =
          LOut.ok () ⟨(tokenize "\x7b let a = 1 ; b = 2 ; input c ; \x7d").1, c, lhs⟩ ∧
        ∀ v, v ∈ tab.map Prod.fst ↔ v ∈ lhs :=
  ⟨_, rfl, c9_symbol_table_keys 50 _ _ rfl⟩

end Recognizer
